import Mathlib

/-!
# QtBackgroundProcess: the coordination core of `AppPrivate`

A shallow embedding of `src/backgroundprocess/app_p.cpp`.

* The private object `AppPrivate` becomes a record of the fields the modelled
  functions read or write.
* Everything the functions ask of the outside (lock file, process spawning,
  local server, host callbacks, standard input) is answered by a `World`
  record of outcomes; every such interaction is also written, in program
  order, to a list of `Event`s returned next to the result.
* A member function `int f(...)` becomes `f : World → ... → AppPrivate → Res`,
  a `Res` being exit code, successor state and emitted events.
-/

namespace QtBackgroundProcess

/-! ## Constants -/

/-- The value of `EXIT_SUCCESS`. -/
def EXIT_SUCCESS : Int := 0

/-- The value of `EXIT_FAILURE`. -/
def EXIT_FAILURE : Int := 1

/-- The constant `AppPrivate::masterArgument`. -/
def masterArgument : String := "__qbckgrndprcss$start#master~"

/-- The constant `AppPrivate::purgeArgument`. -/
def purgeArgument : String := "purge_master"

/-- The constant `AppPrivate::startArgument`. -/
def startArgument : String := "start"

/-- The translation function `tr`, with no translator installed. -/
def tr (s : String) : String := s

/-! ## Data model -/

/-- A `QCommandLineParser` after parsing: the positional arguments, the names
for which `isSet` answers true, and what `value` answers for a name (a given
value or the option's default). -/
structure QCommandLineParser where
  positionalArguments : List String
  setOptions : List String
  values : List (String × String)
deriving DecidableEq, Repr

/-- The query `parser.isSet(name)`. -/
def QCommandLineParser.isSet (p : QCommandLineParser) (name : String) : Bool :=
  p.setOptions.contains name

/-- The query `parser.value(name)`; the empty string for an unknown name. -/
def QCommandLineParser.value (p : QCommandLineParser) (name : String) : String :=
  (p.values.lookup name).getD ""

/-- Message severities of the logging category. -/
inductive Severity
  | debug | warning | critical
deriving DecidableEq, Repr

/-- Invocations queued on the event loop with `Qt::QueuedConnection`. -/
inductive Queued
  | beginMasterConnect (arguments : List String) (isStarter : Bool)
  | doExit (code : Int)
deriving DecidableEq, Repr

/-- Observable interactions, in program order. Terminals are named by the
identity of their connection object. -/
inductive Event
  | tryLock (timeoutMs : Nat) (ok : Bool)
  | unlock
  | getLockInfo (found : Bool)
  | removeStaleLockFile (ok : Bool)
  | startDetached (args : List String) (ok : Bool)
  | msleep (ms : Nat)
  | invokeMethod (call : Queued)
  | log (severity : Severity) (text : String)
  | listen (name : String) (ok : Bool)
  | serverClose
  | removeServer (name : String) (ok : Bool)
  | setMessagePattern
  | newGlobalTerminal
  | setFilterRules (rules : String)
  | closeLogFile
  | openLogFile (path : String) (ok : Bool)
  | daemonize
  | setCurrentRoot
  | startupApp (result : Int)
  | cout (text : String)
  | cinGet (answer : Char)
  | setupParser (terminal : Nat)
  | deleteLater (terminal : Nat)
  | setAutoDelete (terminal : Nat) (enabled : Bool)
  | commandReceived (parser : QCommandLineParser) (isStarter : Bool)
  | requestAppShutdown (terminal : Nat)
  | flush (terminal : Nat)
  | disconnectTerminal (terminal : Nat)
  | connectDestroyed (terminal : Nat)
  | connectedTerminalsChanged (terminals : List Nat)
  | newTerminalConnected (terminal : Nat)
deriving DecidableEq, Repr

/-- The fields of `AppPrivate` the modelled functions use. `lockHeld` is
whether `masterLock` is locked by this process, `listening` whether
`masterServer` is listening, `filterRules` the rules last installed through
`QLoggingCategory::setFilterRules` (`none` before the first call), `logFile`
the path of the open log file. -/
structure AppPrivate where
  autoStart : Bool
  ignoreExtraStart : Bool
  autoDelete : Bool
  autoKill : Bool
  masterLogging : Bool
  instanceId : String
  lockHeld : Bool
  listening : Bool
  filterRules : Option String
  logFile : Option String
  activeTerminals : List Nat
deriving DecidableEq, Repr

/-- A `TerminalPrivate` as seen by `terminalLoaded`: the identity of the
connection, its starter flag, and the outcome of `terminal->loadParser()`:
the parser's error text, or the parsed command line. -/
structure TerminalPrivate where
  ident : Nat
  isStarter : Bool
  loaded : Except String QCommandLineParser

/-- Outcomes of everything outside the modelled functions.

* `arguments`: `QCoreApplication::arguments()`, program name first;
* `tryLock t`: outcome of `masterLock->tryLock(t)`;
* `getLockInfo i`: outcome of the `i`-th call (from 0) of
  `masterLock->getLockInfo`, with the holder data it reads;
* `startDetached args`: outcome of `QProcess::startDetached`;
* `listen`, `removeServer`: outcomes of the `QLocalServer` calls on a name;
* `removeStaleLockFile`, `openLogFile`: outcomes of the file operations;
* `startupApp`: return value of the host's startup hook;
* `requestAppShutdown t code`: the host's shutdown hook called for terminal
  `t` with the exit-code slot holding `code`; answers whether shutdown is
  accepted and what the slot holds afterwards;
* `cinGet`: the character `(char)std::cin.get()`;
* `toInt`: `QString::toInt`. -/
structure World where
  arguments : List String
  applicationFilePath : String
  tryLock : Nat → Bool
  getLockInfo : Nat → Bool
  holderPid : Int
  holderHostname : String
  holderAppname : String
  startDetached : List String → Bool
  listen : String → Bool
  removeServer : String → Bool
  removeStaleLockFile : Bool
  openLogFile : String → Bool
  startupApp : QCommandLineParser → Int
  requestAppShutdown : Nat → Int → Bool × Int
  cinGet : Char
  toInt : String → Int

/-- What a modelled member function yields: its return value, the successor
state, and the events it emitted. -/
structure Res where
  code : Int
  st : AppPrivate
  ev : List Event
deriving DecidableEq, Repr

/-! ## Client-side role resolution -/

/-- The function `AppPrivate::testMasterRunning`. The call
`arguments.removeFirst()` is the tail of the list, Qt supplying the program
name as first element. -/
def testMasterRunning (w : World) (d : AppPrivate) : Res :=
  let arguments := w.arguments.tail
  if w.tryLock 0 then
    { code := EXIT_FAILURE
      st := { d with lockHeld := false }
      ev := [.tryLock 0 true, .unlock,
             .log .critical (tr "Master process is not running! Please launch it by using:"
               ++ " " ++ w.applicationFilePath ++ " start")] }
  else
    { code := EXIT_SUCCESS
      st := d
      ev := [.tryLock 0 false, .invokeMethod (.beginMasterConnect arguments false)] }

/-- The wait loop of `startMaster` with `n` iterations left, `i` being the loop
counter: `for(; i < 50; i++)`, called with `n = 50 - i`. Yields the flag `ok`
and the events of the loop. -/
def waitForLock (w : World) : Nat → Nat → Bool × List Event
  | 0, _ => (false, [])
  | n + 1, i =>
    if w.getLockInfo i then
      (true, [.getLockInfo true])
    else
      let r := waitForLock w n (i + 1)
      (r.1, .getLockInfo false :: .msleep 100 :: r.2)

/-- The function `AppPrivate::startMaster`. The call `arguments.removeFirst()`
is the tail of the list, Qt supplying the program name as first element;
`removeOne` erases the first element equal to its argument. When the spawn
fails the lock taken by the test is not released. -/
def startMaster (w : World) (isAutoStart : Bool) (d : AppPrivate) : Res :=
  let arguments := w.arguments.tail
  if w.tryLock 0 then
    let args := arguments
    let args := if !isAutoStart then args.erase startArgument else args
    let args := masterArgument :: args
    let spawned := w.startDetached args
    let wait : Bool × List Event :=
      if spawned then
        let r := waitForLock w 50 0
        (r.1, .unlock :: r.2)
      else (false, [])
    let d1 := if spawned then { d with lockHeld := false } else { d with lockHeld := true }
    let ev := .tryLock 0 true :: .startDetached args spawned :: wait.2
    if wait.1 then
      { code := EXIT_SUCCESS
        st := d1
        ev := ev ++ [.msleep 250, .invokeMethod (.beginMasterConnect arguments true)] }
    else
      { code := EXIT_FAILURE
        st := d1
        ev := ev ++ [.log .critical
                (tr "Failed to start master process! No master lock was detected.")] }
  else
    if !isAutoStart && d.ignoreExtraStart then
      { code := EXIT_SUCCESS
        st := d
        ev := [.tryLock 0 false,
               .log .warning (tr ("Start commands ignored because master is already running! "
                 ++ "The terminal will connect with an empty argument list!")),
               .invokeMethod (.beginMasterConnect [] false)] }
    else
      { code := EXIT_SUCCESS
        st := d
        ev := .tryLock 0 false ::
              ((if !isAutoStart then
                  [.log .warning
                    (tr "Master is already running. Start arguments will be passed to it as is")]
                else []) ++
               [.invokeMethod (.beginMasterConnect arguments false)]) }

/-! ## Logging configuration -/

/-- The function `AppPrivate::updateLoggingMode`: the `switch` falls through
from the given level down to level 3, each case putting its rule in front of
the string; a level outside 0..4 returns before any rule is installed. -/
def updateLoggingMode (level : Int) (d : AppPrivate) : AppPrivate × List Event :=
  if level < 0 ∨ 4 < level then (d, [])
  else
    let logStr := ""
    let logStr := if level ≤ 0 then "\n*.critical=false" ++ logStr else logStr
    let logStr := if level ≤ 1 then "\n*.warning=false" ++ logStr else logStr
    let logStr := if level ≤ 2 then "\n*.info=false" ++ logStr else logStr
    let logStr := if level ≤ 3 then "*.debug=false" ++ logStr else logStr
    ({ d with filterRules := some logStr }, [.setFilterRules logStr])

/-- The function `AppPrivate::updateLoggingPath`. -/
def updateLoggingPath (w : World) (path : String) (d : AppPrivate) : AppPrivate × List Event :=
  let closed : AppPrivate × List Event :=
    if d.logFile.isSome then ({ d with logFile := none }, [.closeLogFile]) else (d, [])
  if path ≠ "" then
    let ok := w.openLogFile path
    ({ closed.1 with logFile := if ok then some path else none },
      closed.2 ++ [.openLogFile path ok])
  else closed

/-! ## Becoming the master, purging -/

/-- The function `AppPrivate::makeMaster` (the branch of the console handling
compiled outside Windows; the host's startup hook is `startupApp`). -/
def makeMaster (w : World) (parser : QCommandLineParser) (d : AppPrivate) : Res :=
  if !w.listen d.instanceId then
    { code := EXIT_FAILURE
      st := { d with listening := false }
      ev := [.listen d.instanceId false,
             .log .critical (tr "Failed to create local server with error:")] }
  else if !w.tryLock 5000 then
    { code := EXIT_FAILURE
      st := { d with listening := false }
      ev := [.listen d.instanceId true, .tryLock 5000 false, .serverClose,
             .log .critical (tr "Unable to start master process. Failed with lock error:")] }
  else
    let d1 := { d with listening := true, lockHeld := true }
    let ev1 : List Event := [.listen d.instanceId true, .tryLock 5000 true, .setMessagePattern]
    let ev2 : List Event := if d1.masterLogging then [.newGlobalTerminal] else []
    let m := updateLoggingMode (w.toInt (parser.value "loglevel")) d1
    let l := updateLoggingPath w (parser.value "logpath") m.1
    let ev3 : List Event :=
      if !parser.isSet "no-daemon" then [.daemonize, .log .debug "currentPath"]
      else [.setCurrentRoot]
    let res := w.startupApp parser
    let ev := ev1 ++ ev2 ++ m.2 ++ l.2 ++ ev3 ++ [.startupApp res]
    if res ≠ EXIT_SUCCESS then
      { code := res
        st := { l.1 with listening := false, lockHeld := false }
        ev := ev ++ [.serverClose, .unlock] }
    else
      { code := res, st := l.1, ev := ev }

/-- The function `AppPrivate::purgeMaster`. The local `res` collects the
failure bits; the value returned is `res == 0 ? -1 : res`. -/
def purgeMaster (w : World) (parser : QCommandLineParser) (d : AppPrivate) : Res :=
  let ask : List Event :=
    if !parser.isSet "accept" then
      [.cout (tr ("Are you shure you want to purge the master lock and server?\n"
          ++ "Only do this if the master process is not running anymore, but the lock/server "
          ++ "are not available (for example after a crash)\n"
          ++ "Purging while the master process is still running will crash it.\n"
          ++ "Press (y) to purge, or (n) to cancel:")),
       .cinGet w.cinGet]
    else []
  if !parser.isSet "accept" ∧
      (String.singleton w.cinGet ≠ tr "y" ∧ String.singleton w.cinGet ≠ tr "Y") then
    { code := EXIT_FAILURE, st := d, ev := ask }
  else
    let res : Nat := 0
    let found := w.getLockInfo 0
    let removed := w.removeStaleLockFile
    let res := if found ∧ ¬ removed then res ||| 0x02 else res
    let evLock : List Event :=
      if found then
        [.getLockInfo true, .removeStaleLockFile removed,
         .cout (if removed then tr "Master lockfile successfully removed. It was locked by:"
                else tr "Failed to remove master lockfile. Lock data is:"),
         .cout (tr "\n - PID: " ++ toString w.holderPid ++ tr "\n - Hostname: "
                ++ w.holderHostname ++ tr "\n - Appname: " ++ w.holderAppname)]
      else [.getLockInfo false, .cout (tr "No lock file detected")]
    let srv := w.removeServer d.instanceId
    let res := if ¬ srv then res ||| 0x04 else res
    let evSrv : List Event :=
      [.removeServer d.instanceId srv,
       .cout (if srv then tr "Master server successfully removed"
              else tr "Failed to remove master server")]
    { code := if res = 0 then -1 else (res : Int)
      st := d
      ev := ask ++ evLock ++ evSrv }

/-- The function `AppPrivate::initControlFlow`: the three sentinel tests on
the first positional argument, each returning from the function, and behind
them the choice between auto-start and probing. -/
def initControlFlow (w : World) (parser : QCommandLineParser) (d : AppPrivate) : Res :=
  let args := parser.positionalArguments
  let early : Option Res :=
    match args with
    | a :: _ =>
      if a = masterArgument then some (makeMaster w parser d)
      else if a = purgeArgument then some (purgeMaster w parser d)
      else if a = startArgument then some (startMaster w false d)
      else none
    | [] => none
  match early with
  | some r => r
  | none =>
    if d.autoStart then startMaster w true d
    else testMasterRunning w d

/-! ## Master side: terminals -/

/-- The function `AppPrivate::stopMaster`; the exit-code slot starts as
`EXIT_SUCCESS`. -/
def stopMaster (w : World) (term : Nat) (d : AppPrivate) : AppPrivate × List Event :=
  let eCode := EXIT_SUCCESS
  let r := w.requestAppShutdown term eCode
  if r.1 then
    (d, .requestAppShutdown term :: (d.activeTerminals.map Event.flush ++
      [.invokeMethod (.doExit r.2)]))
  else (d, [.requestAppShutdown term])

/-- The handler connected to `Terminal::destroyed` in `terminalLoaded`. -/
def terminalDestroyed (rTerm : Nat) (d : AppPrivate) : AppPrivate × List Event :=
  let terms := d.activeTerminals.erase rTerm
  ({ d with activeTerminals := terms }, [.connectedTerminalsChanged terms])

/-- The block "handle own arguments (logging)" of `terminalLoaded`: the
terminal's log level and log path, each applied when its option is set. -/
def loggingDirectives (w : World) (parser : QCommandLineParser) (d : AppPrivate) :
    AppPrivate × List Event :=
  let m : AppPrivate × List Event :=
    if parser.isSet "loglevel" then updateLoggingMode (w.toInt (parser.value "loglevel")) d
    else (d, [])
  let l : AppPrivate × List Event :=
    if parser.isSet "logpath" then updateLoggingPath w (parser.value "logpath") m.1
    else (m.1, [])
  (l.1, m.2 ++ l.2)

/-- The function `AppPrivate::terminalLoaded`. The `Terminal` created from the
connection carries the connection's identity. -/
def terminalLoaded (w : World) (terminal : TerminalPrivate) (success : Bool)
    (d : AppPrivate) : AppPrivate × List Event :=
  if success then
    match terminal.loaded with
    | .error errorText =>
      (d, [.setupParser terminal.ident,
           .log .warning (tr "Terminal with invalid commands discarded. Error:" ++ " "
             ++ errorText),
           .deleteLater terminal.ident])
    | .ok parser =>
      let l := loggingDirectives w parser d
      let rTerm := terminal.ident
      let ev1 : List Event :=
        .setupParser terminal.ident :: (l.2 ++
          [.setAutoDelete rTerm l.1.autoDelete, .commandReceived parser terminal.isStarter])
      let args := parser.positionalArguments
      let s : AppPrivate × List Event :=
        if !args.isEmpty && args.head? == some "stop" then stopMaster w rTerm l.1
        else (l.1, [])
      if s.1.autoKill || parser.isSet "detached" then
        (s.1, ev1 ++ s.2 ++ [.setAutoDelete rTerm true, .disconnectTerminal rTerm])
      else
        let terms := s.1.activeTerminals ++ [rTerm]
        ({ s.1 with activeTerminals := terms },
          ev1 ++ s.2 ++ [.connectDestroyed rTerm, .connectedTerminalsChanged terms,
            .newTerminalConnected rTerm])
  else
    (d, [.deleteLater terminal.ident])

/-! ## Instance identifier -/

/-- The two Qt text routines `generateSingleId` relies on: `QString::toLower`
and `qChecksum` (a 16-bit checksum of a byte sequence). -/
structure QtText where
  toLower : String → String
  qChecksum : List UInt8 → Nat

/-- The characters outside the class `[^a-zA-Z0-9_]`, i.e. those the regular
expression of `generateSingleId` leaves in place. -/
def keptInId (c : Char) : Bool :=
  ('a' ≤ c && c ≤ 'z') || ('A' ≤ c && c ≤ 'Z') || ('0' ≤ c && c ≤ '9') || c == '_'

/-- The rendering `QString::number(n, 16)` of a non-negative number. -/
def hex (n : Nat) : String := String.mk (Nat.toDigits 16 n)

/-- The conversion `QString::toUtf8`, as a list of bytes. -/
def toUtf8 (s : String) : List UInt8 := s.data.flatMap String.utf8EncodeChar

/-- The function `AppPrivate::generateSingleId`. `sess` is the OS session or
user id: `some (getuid())` outside Windows; on Windows the session id, or
`none` when `ProcessIdToSessionId` fails and nothing is appended. -/
def generateSingleId (q : QtText) (applicationName organizationName organizationDomain : String)
    (sess : Option Nat) (seed : String) : String :=
  let fullId := q.toLower applicationName
  let fullId := String.mk (fullId.data.filter keptInId)
  let fullId := String.mk (fullId.data.take 8)
  let fullId := "qbackproc-" ++ fullId
  let hashBase := toUtf8 (organizationName ++ organizationDomain ++ seed)
  let fullId := fullId ++ ("-" ++ hex (q.qChecksum hashBase) ++ "-")
  match sess with
  | some id => fullId ++ hex id
  | none => fullId

/-- The arguments of a spawned master as the specification words them: the
master sentinel, then the current arguments, unchanged on auto-start and with
the start token removed on manual start. `startIdx` is the position of the
start token, the first positional argument, among the current arguments. -/
def specSpawnArguments (isAutoStart : Bool) (arguments : List String) (startIdx : Nat) :
    List String :=
  masterArgument :: (if isAutoStart then arguments else arguments.eraseIdx startIdx)

/-- The identifier as the specification words it: the name part is the
lower-cased application name with every non-alphanumeric character stripped,
cut to at most 8 characters. -/
def specSingleId (q : QtText) (applicationName organizationName organizationDomain : String)
    (sess : Nat) (seed : String) : String :=
  "qbackproc-" ++ String.mk (((q.toLower applicationName).data.filter Char.isAlphanum).take 8)
    ++ "-" ++ hex (q.qChecksum (toUtf8 (organizationName ++ organizationDomain ++ seed)))
    ++ "-" ++ hex sess

/-- The table `crc_tbl` of Qt's `qChecksum`. -/
def crcTbl : List Nat :=
  [0x0000, 0x1081, 0x2102, 0x3183, 0x4204, 0x5285, 0x6306, 0x7387,
   0x8408, 0x9489, 0xa50a, 0xb58b, 0xc60c, 0xd68d, 0xe70e, 0xf78f]

/-- One byte of Qt's `qChecksum`: two table steps, low nibble first. -/
def crcStep (crc : Nat) (c : UInt8) : Nat :=
  let c := c.toNat
  let crc := ((crc >>> 4) &&& 0x0fff) ^^^ crcTbl.getD ((crc ^^^ c) &&& 15) 0
  let c := c >>> 4
  ((crc >>> 4) &&& 0x0fff) ^^^ crcTbl.getD ((crc ^^^ c) &&& 15) 0

/-- Qt's `qChecksum` (the CRC-16 of ISO 3309), used to evaluate
`generateSingleId` on concrete input. -/
def qChecksum (data : List UInt8) : Nat :=
  (0xffff ^^^ data.foldl crcStep 0xffff) &&& 0xffff

/-- Qt's text routines on ASCII input: `QString::toLower` maps the letters
`A`..`Z` and leaves every other ASCII character. -/
def qtAscii : QtText where
  toLower := fun s => String.mk (s.data.map Char.toLower)
  qChecksum := qChecksum

/-! ## Reading event lists -/

/-- The connections scheduled by a run: argument list and starter flag of
every queued `beginMasterConnect`, in order. -/
def connects (ev : List Event) : List (List String × Bool) :=
  ev.filterMap fun e =>
    match e with
    | .invokeMethod (.beginMasterConnect a s) => some (a, s)
    | _ => none

/-- The spawn attempts of a run: arguments and outcome of every
`QProcess::startDetached`, in order. -/
def spawns (ev : List Event) : List (List String × Bool) :=
  ev.filterMap fun e =>
    match e with
    | .startDetached a ok => some (a, ok)
    | _ => none

/-- The holder-info reads of a run: outcome of every `getLockInfo`, in order. -/
def polls (ev : List Event) : List Bool :=
  ev.filterMap fun e =>
    match e with
    | .getLockInfo found => some found
    | _ => none

/-- The commands dispatched to the host: parser and starter flag of every
`commandReceived`, in order. -/
def commands (ev : List Event) : List (QCommandLineParser × Bool) :=
  ev.filterMap fun e =>
    match e with
    | .commandReceived p s => some (p, s)
    | _ => none

/-- The terminals for which the host's shutdown hook was asked, in order. -/
def shutdownRequests (ev : List Event) : List Nat :=
  ev.filterMap fun e =>
    match e with
    | .requestAppShutdown t => some t
    | _ => none

/-- The terminals flushed, in order. -/
def flushes (ev : List Event) : List Nat :=
  ev.filterMap fun e =>
    match e with
    | .flush t => some t
    | _ => none

/-- The exit codes of the deferred exits scheduled (queued `doExit`), in order. -/
def exits (ev : List Event) : List Int :=
  ev.filterMap fun e =>
    match e with
    | .invokeMethod (.doExit c) => some c
    | _ => none

/-- The registry-changed notifications, each with the registry it carries. -/
def registryNotices (ev : List Event) : List (List Nat) :=
  ev.filterMap fun e =>
    match e with
    | .connectedTerminalsChanged ts => some ts
    | _ => none

/-- The connection objects discarded with `deleteLater`, in order. -/
def discarded (ev : List Event) : List Nat :=
  ev.filterMap fun e =>
    match e with
    | .deleteLater t => some t
    | _ => none

/-- The events that change the master's logging: installing filter rules,
closing or opening the log file. -/
def loggingChanges (ev : List Event) : List Event :=
  ev.filter fun e =>
    match e with
    | .setFilterRules _ => true
    | .closeLogFile => true
    | .openLogFile _ _ => true
    | _ => false

/-- The attempts to remove the lock file, each with its outcome. -/
def lockRemovals (ev : List Event) : List Bool :=
  ev.filterMap fun e =>
    match e with
    | .removeStaleLockFile ok => some ok
    | _ => none

/-- The attempts to remove the local endpoint: name and outcome. -/
def serverRemovals (ev : List Event) : List (String × Bool) :=
  ev.filterMap fun e =>
    match e with
    | .removeServer name ok => some (name, ok)
    | _ => none

/-- The lock attempts of a run: timeout and outcome of every `tryLock`. -/
def lockAttempts (ev : List Event) : List (Nat × Bool) :=
  ev.filterMap fun e =>
    match e with
    | .tryLock t ok => some (t, ok)
    | _ => none

/-- The attempts to bind the local endpoint: name and outcome of every
`listen`. -/
def listens (ev : List Event) : List (String × Bool) :=
  ev.filterMap fun e =>
    match e with
    | .listen name ok => some (name, ok)
    | _ => none

/-- No attempt to bind the endpoint is made before the first successful lock
attempt. -/
def listenOnlyAfterLock : List Event → Bool
  | [] => true
  | .tryLock _ true :: _ => true
  | .listen _ _ :: _ => false
  | _ :: es => listenOnlyAfterLock es

/-- No lock attempt is made before the first successful bind of the endpoint. -/
def lockOnlyAfterListen : List Event → Bool
  | [] => true
  | .listen _ true :: _ => true
  | .tryLock _ _ :: _ => false
  | _ :: es => lockOnlyAfterListen es

/-- No connection is scheduled before the first holder-info read that reports
a holder. -/
def connectOnlyAfterHolder : List Event → Bool
  | [] => true
  | .getLockInfo true :: _ => true
  | .invokeMethod (.beginMasterConnect _ _) :: _ => false
  | _ :: es => connectOnlyAfterHolder es

/-! ## Sample inputs -/

/-- A freshly constructed `AppPrivate` (the constructor's initial values)
whose instance id is `qbackproc-demo-0-3e8`. -/
def freshApp : AppPrivate where
  autoStart := false
  ignoreExtraStart := false
  autoDelete := true
  autoKill := false
  masterLogging := false
  instanceId := "qbackproc-demo-0-3e8"
  lockHeld := false
  listening := false
  filterRules := none
  logFile := none
  activeTerminals := []

/-- The conversion `QString::toInt` on plain decimal input (digits, with an
optional leading minus sign); 0 for anything else, as `toInt` answers when the
conversion fails. -/
def decimal (s : String) : Int :=
  let digits (cs : List Char) : Option Nat :=
    if cs ≠ [] ∧ cs.all Char.isDigit then
      some (cs.foldl (fun n c => 10 * n + (c.toNat - 48)) 0)
    else none
  match s.data with
  | '-' :: cs => ((digits cs).map fun n => - (n : Int)).getD 0
  | cs => ((digits cs).map fun n => (n : Int)).getD 0

/-- A world in which no master is running and everything succeeds: the lock is
free, the spawned master's lock shows at the third read, the host accepts. -/
def calmWorld (arguments : List String) : World where
  arguments := arguments
  applicationFilePath := "/usr/bin/demo"
  tryLock := fun _ => true
  getLockInfo := fun i => decide (2 ≤ i)
  holderPid := 4242
  holderHostname := "host"
  holderAppname := "demo"
  startDetached := fun _ => true
  listen := fun _ => true
  removeServer := fun _ => true
  removeStaleLockFile := true
  openLogFile := fun _ => true
  startupApp := fun _ => 0
  requestAppShutdown := fun _ code => (true, code)
  cinGet := 'y'
  toInt := decimal

/-- A world in which a master is running: as `calmWorld`, the lock being taken. -/
def busyWorld (arguments : List String) : World :=
  { calmWorld arguments with tryLock := fun _ => false, getLockInfo := fun _ => true }

/-- A parsed command line with the given positional arguments and no option. -/
def positionalOnly (args : List String) : QCommandLineParser where
  positionalArguments := args
  setOptions := []
  values := [("loglevel", "4"), ("logpath", "")]

/-- A terminal that sent `stop`, and its parsed command line. -/
def stopTerminal : TerminalPrivate where
  ident := 7
  isStarter := false
  loaded := .ok (positionalOnly ["stop"])

/-- A parsed `purge_master --accept`. -/
def purgeAccepted : QCommandLineParser where
  positionalArguments := ["purge_master"]
  setOptions := ["accept"]
  values := []

/-- The command line `demo --logpath start --detached start` as the default
parser reads it: `--logpath` takes the value `start`, `--detached` is a flag,
and the only positional argument is the `start` at position 3 of the
arguments behind the program name. -/
def logpathStart : QCommandLineParser where
  positionalArguments := ["start"]
  setOptions := ["logpath", "detached"]
  values := [("loglevel", "4"), ("logpath", "start")]

/-! ## The active-terminal registry over time -/

/-- The terminals disconnected by the master, in order. -/
def disconnects (ev : List Event) : List Nat :=
  ev.filterMap fun e =>
    match e with
    | .disconnectTerminal t => some t
    | _ => none

/-- What happens to the master between two turns of the event loop, as far as
the registry goes: a connection completes its status load and
`terminalLoaded` runs, or a `Terminal` object is destroyed. -/
inductive Step
  | loaded (terminal : TerminalPrivate) (success : Bool)
  | destroyed (rTerm : Nat)

/-- One step of the master. The handler of `Terminal::destroyed` is connected
in `terminalLoaded` for the retained terminals only, which are the members of
the registry; the destruction of any other terminal reaches no handler. -/
def step (w : World) (d : AppPrivate) : Step → AppPrivate × List Event
  | .loaded terminal success => terminalLoaded w terminal success d
  | .destroyed rTerm =>
    if d.activeTerminals.contains rTerm then terminalDestroyed rTerm d else (d, [])

/-- A sequence of steps, run from a state; the events are those of all the
steps, in order. -/
def run (w : World) : AppPrivate → List Step → AppPrivate × List Event
  | d, [] => (d, [])
  | d, s :: rest =>
    let r := run w (step w d s).1 rest
    (r.1, (step w d s).2 ++ r.2)

/-- Every `Terminal` created along the sequence is a new object: when a
connection completes, its identity is that of no terminal in the registry. -/
def freshArrivals (w : World) : AppPrivate → List Step → Bool
  | _, [] => true
  | d, .loaded terminal success :: rest =>
    !d.activeTerminals.contains terminal.ident &&
      freshArrivals w (step w d (.loaded terminal success)).1 rest
  | d, .destroyed rTerm :: rest => freshArrivals w (step w d (.destroyed rTerm)).1 rest

/-- The terminal is one the specification has retained: its status load
succeeded, its arguments were validated, and neither the auto-kill policy is
on nor detached mode asked for. -/
def retains (d : AppPrivate) (terminal : TerminalPrivate) (success : Bool) : Bool :=
  success &&
    match terminal.loaded with
    | .ok parser => !(d.autoKill || parser.isSet "detached")
    | .error _ => false

/-- The retained terminals of a sequence, in the order of their arrival. -/
def retainedArrivals (w : World) : AppPrivate → List Step → List Nat
  | _, [] => []
  | d, .loaded terminal success :: rest =>
    (if retains d terminal success then [terminal.ident] else []) ++
      retainedArrivals w (step w d (.loaded terminal success)).1 rest
  | d, .destroyed rTerm :: rest => retainedArrivals w (step w d (.destroyed rTerm)).1 rest

/-- A terminal with the given identity sending the given positional arguments,
in detached mode or not. -/
def plainTerminal (ident : Nat) (args : List String) (detached : Bool) : TerminalPrivate where
  ident := ident
  isStarter := false
  loaded := .ok { positionalArguments := args
                  setOptions := if detached then ["detached"] else []
                  values := [] }

/-- A morning of the master: terminal 1 attaches, terminal 2 sends a detached
command, terminal 3 attaches, terminal 1 goes away, the connection 4 sends
arguments the parser rejects, terminal 2 is destroyed. -/
def sampleSteps : List Step :=
  [.loaded (plainTerminal 1 ["status"] false) true,
   .loaded (plainTerminal 2 ["reload"] true) true,
   .loaded (plainTerminal 3 ["status"] false) true,
   .destroyed 1,
   .loaded { ident := 4, isStarter := false, loaded := .error "Unknown option 'q'." } true,
   .destroyed 2]

/-! ## Role detection -/

/-- C1. In `initControlFlow` the first positional argument decides the role:
the master sentinel runs `makeMaster`, `purge_master` runs `purgeMaster`,
`start` runs `startMaster` as a manual start, and anything else (no positional
argument included) runs `startMaster` as an auto-start when the auto-start
policy is on and `testMasterRunning` when it is off. In each case the result,
the successor state and the emitted events are exactly those of that one
function. -/
theorem initControlFlow_role (w : World) (parser : QCommandLineParser) (d : AppPrivate) :
    (parser.positionalArguments.head? = some masterArgument →
      initControlFlow w parser d = makeMaster w parser d) ∧
    (parser.positionalArguments.head? = some purgeArgument →
      initControlFlow w parser d = purgeMaster w parser d) ∧
    (parser.positionalArguments.head? = some startArgument →
      initControlFlow w parser d = startMaster w false d) ∧
    (parser.positionalArguments.head? ≠ some masterArgument →
      parser.positionalArguments.head? ≠ some purgeArgument →
      parser.positionalArguments.head? ≠ some startArgument →
      initControlFlow w parser d =
        if d.autoStart then startMaster w true d else testMasterRunning w d) := by
  have hpm : purgeArgument ≠ masterArgument := by decide
  have hsm : startArgument ≠ masterArgument := by decide
  have hsp : startArgument ≠ purgeArgument := by decide
  unfold initControlFlow
  cases hargs : parser.positionalArguments with
  | nil => simp
  | cons a rest =>
    simp only [List.head?_cons, Option.some.injEq, ne_eq]
    refine ⟨?_, ?_, ?_, ?_⟩
    · intro h; subst h; simp
    · intro h; subst h; simp [hpm]
    · intro h; subst h; simp [hsm, hsp]
    · intro h1 h2 h3; simp [h1, h2, h3]

/-- C1, on concrete command lines: one run for each of the five outcomes. -/
theorem initControlFlow_role_witness :
    initControlFlow (calmWorld ["demo", masterArgument]) (positionalOnly [masterArgument]) freshApp
      = makeMaster (calmWorld ["demo", masterArgument]) (positionalOnly [masterArgument]) freshApp ∧
    initControlFlow (calmWorld ["demo", "purge_master"]) (positionalOnly ["purge_master"]) freshApp
      = purgeMaster (calmWorld ["demo", "purge_master"]) (positionalOnly ["purge_master"])
          freshApp ∧
    initControlFlow (calmWorld ["demo", "start"]) (positionalOnly ["start"]) freshApp
      = startMaster (calmWorld ["demo", "start"]) false freshApp ∧
    initControlFlow (busyWorld ["demo", "status"]) (positionalOnly ["status"]) freshApp
      = testMasterRunning (busyWorld ["demo", "status"]) freshApp ∧
    initControlFlow (busyWorld ["demo"]) (positionalOnly []) { freshApp with autoStart := true }
      = startMaster (busyWorld ["demo"]) true { freshApp with autoStart := true } :=
  ⟨(initControlFlow_role _ _ _).1 rfl,
   (initControlFlow_role _ _ _).2.1 rfl,
   (initControlFlow_role _ _ _).2.2.1 rfl,
   (initControlFlow_role (busyWorld ["demo", "status"]) (positionalOnly ["status"])
      freshApp).2.2.2 (by decide) (by decide) (by decide),
   (initControlFlow_role (busyWorld ["demo"]) (positionalOnly [])
      { freshApp with autoStart := true }).2.2.2 (by decide) (by decide) (by decide)⟩

/-! ## EnsureMaster: a master is already running -/

/-- C2, as the code has it. When the immediate lock attempt of `startMaster`
fails, no process is spawned, exactly one connection is scheduled, with
starter = false, and `EXIT_SUCCESS` is returned. The forwarded list is empty
when the call is a manual start and the "ignore extra starts" policy is on;
in every other case, auto-start with the policy on included, it is the
original arguments without the program name. -/
theorem startMaster_master_running (w : World) (isAutoStart : Bool) (d : AppPrivate)
    (h : w.tryLock 0 = false) :
    (startMaster w isAutoStart d).code = EXIT_SUCCESS ∧
    spawns (startMaster w isAutoStart d).ev = [] ∧
    connects (startMaster w isAutoStart d).ev =
      [(if !isAutoStart && d.ignoreExtraStart then [] else w.arguments.tail, false)] := by
  unfold startMaster
  cases isAutoStart <;> cases hi : d.ignoreExtraStart <;>
    simp [h, hi, spawns, connects]

/-- C2 as amended, on a concrete run: a manual `start` with the policy on,
against a running master. -/
theorem startMaster_master_running_witness :
    (busyWorld ["demo", "start", "--x"]).tryLock 0 = false ∧
    (startMaster (busyWorld ["demo", "start", "--x"]) false
        { freshApp with ignoreExtraStart := true }).code = EXIT_SUCCESS ∧
    spawns (startMaster (busyWorld ["demo", "start", "--x"]) false
        { freshApp with ignoreExtraStart := true }).ev = [] ∧
    connects (startMaster (busyWorld ["demo", "start", "--x"]) false
        { freshApp with ignoreExtraStart := true }).ev = [([], false)] :=
  ⟨rfl, startMaster_master_running (busyWorld ["demo", "start", "--x"]) false
    { freshApp with ignoreExtraStart := true } rfl⟩

/-- C2 as stated fails: on an auto-start against a running master, with the
"ignore extra starts" policy on, the connection forwards the original
arguments, not the empty list. -/
theorem startMaster_autoStart_forwards_despite_ignore :
    ({ freshApp with ignoreExtraStart := true } : AppPrivate).ignoreExtraStart = true ∧
    (busyWorld ["demo", "status"]).tryLock 0 = false ∧
    connects (startMaster (busyWorld ["demo", "status"]) true
        { freshApp with ignoreExtraStart := true }).ev = [(["status"], false)] ∧
    connects (startMaster (busyWorld ["demo", "status"]) true
        { freshApp with ignoreExtraStart := true }).ev ≠ [([], false)] := by
  decide

/-! ## EnsureMaster: no master exists -/

/-- The wait loop spawns nothing. -/
theorem waitForLock_spawns (w : World) (n i : Nat) : spawns (waitForLock w n i).2 = [] := by
  induction n generalizing i with
  | zero => rfl
  | succ n ih =>
    unfold waitForLock
    by_cases hg : w.getLockInfo i = true
    · simp [hg, spawns]
    · have := ih (i + 1)
      simp [hg, spawns] at this ⊢
      exact this

/-- The wait loop schedules no connection. -/
theorem waitForLock_connects (w : World) (n i : Nat) : connects (waitForLock w n i).2 = [] := by
  induction n generalizing i with
  | zero => rfl
  | succ n ih =>
    unfold waitForLock
    by_cases hg : w.getLockInfo i = true
    · simp [hg, connects]
    · have := ih (i + 1)
      simp [hg, connects] at this ⊢
      exact this

/-- With `n` iterations left the wait loop reads the holder info at most `n`
times. -/
theorem waitForLock_polls_length (w : World) (n i : Nat) :
    (polls (waitForLock w n i).2).length ≤ n := by
  induction n generalizing i with
  | zero => simp [waitForLock, polls]
  | succ n ih =>
    unfold waitForLock
    by_cases hg : w.getLockInfo i = true
    · simp [hg, polls]
    · have := ih (i + 1)
      simp [hg, polls] at this ⊢
      exact this

/-- The flag `ok` of the wait loop is set exactly when one of its reads
reported a holder. -/
theorem waitForLock_ok_iff_poll (w : World) (n i : Nat) :
    (waitForLock w n i).1 = true ↔ true ∈ polls (waitForLock w n i).2 := by
  induction n generalizing i with
  | zero => simp [waitForLock, polls]
  | succ n ih =>
    unfold waitForLock
    by_cases hg : w.getLockInfo i = true
    · simp [hg, polls]
    · have := ih (i + 1)
      simp [hg, polls] at this ⊢
      exact this

/-- The flag `ok` of the wait loop is set exactly when the holder shows at one
of the `n` reads the loop can make. -/
theorem waitForLock_ok_iff_world (w : World) (n i : Nat) :
    (waitForLock w n i).1 = true ↔ ∃ j, j < n ∧ w.getLockInfo (i + j) = true := by
  induction n generalizing i with
  | zero => simp [waitForLock]
  | succ n ih =>
    unfold waitForLock
    by_cases hg : w.getLockInfo i = true
    · simp only [hg, if_true, true_iff]
      exact ⟨0, Nat.succ_pos n, by simpa using hg⟩
    · simp only [hg, Bool.false_eq_true, if_false]
      rw [ih (i + 1)]
      constructor
      · rintro ⟨j, hj, hw⟩
        exact ⟨j + 1, by omega, by rw [← hw]; congr 1; omega⟩
      · rintro ⟨j, hj, hw⟩
        cases j with
        | zero => exact absurd (by simpa using hw) hg
        | succ j => exact ⟨j, by omega, by rw [← hw]; congr 1; omega⟩

/-- Behind the wait loop a connection comes after a reporting read, or the
loop reported none and the rest decides. -/
theorem connectOnlyAfterHolder_waitForLock (w : World) (n i : Nat) (rest : List Event) :
    connectOnlyAfterHolder ((waitForLock w n i).2 ++ rest) =
      ((waitForLock w n i).1 || connectOnlyAfterHolder rest) := by
  induction n generalizing i with
  | zero => simp [waitForLock]
  | succ n ih =>
    unfold waitForLock
    by_cases hg : w.getLockInfo i = true
    · simp [hg, connectOnlyAfterHolder]
    · have := ih (i + 1)
      simp [hg, connectOnlyAfterHolder] at this ⊢
      exact this

/-- C3. When the immediate lock attempt of `startMaster` succeeds, whatever
the spawn and the holder-info reads answer: there is exactly one spawn attempt
and at most 50 reads; `EXIT_SUCCESS` with exactly one scheduled connection
(the original arguments without the program name, starter = true) is the
outcome if and only if some read reported a holder, which happens exactly when
the spawn succeeded and the holder showed within the 50 reads; no connection
is scheduled before the reporting read; and when no read reported a holder
(the spawn failed, or all 50 reads found nothing) the result is `EXIT_FAILURE`
and no connection is scheduled. -/
theorem startMaster_no_master (w : World) (isAutoStart : Bool) (d : AppPrivate)
    (h : w.tryLock 0 = true) :
    (spawns (startMaster w isAutoStart d).ev).length = 1 ∧
    (polls (startMaster w isAutoStart d).ev).length ≤ 50 ∧
    (((startMaster w isAutoStart d).code = EXIT_SUCCESS ∧
        connects (startMaster w isAutoStart d).ev = [(w.arguments.tail, true)]) ↔
      true ∈ polls (startMaster w isAutoStart d).ev) ∧
    (true ∈ polls (startMaster w isAutoStart d).ev ↔
      ((∃ a, spawns (startMaster w isAutoStart d).ev = [(a, true)]) ∧
        ∃ j, j < 50 ∧ w.getLockInfo j = true)) ∧
    connectOnlyAfterHolder (startMaster w isAutoStart d).ev = true ∧
    (true ∉ polls (startMaster w isAutoStart d).ev →
      (startMaster w isAutoStart d).code = EXIT_FAILURE ∧
        connects (startMaster w isAutoStart d).ev = []) := by
  have hlen := waitForLock_polls_length w 50 0
  have hsp := waitForLock_spawns w 50 0
  have hcn := waitForLock_connects w 50 0
  have hpoll := waitForLock_ok_iff_poll w 50 0
  have hworld := waitForLock_ok_iff_world w 50 0
  have hafter := connectOnlyAfterHolder_waitForLock w 50 0
  simp only [Nat.zero_add] at hworld
  unfold startMaster
  simp only [h, if_true]
  generalize (masterArgument ::
    if (!isAutoStart) = true then w.arguments.tail.erase startArgument
    else w.arguments.tail) = args
  cases hs : w.startDetached args with
  | false =>
    simp [spawns, polls, connects, connectOnlyAfterHolder, EXIT_FAILURE, EXIT_SUCCESS]
  | true =>
    cases hok : (waitForLock w 50 0).1 with
    | false =>
      have hnp : true ∉ polls (waitForLock w 50 0).2 := by
        rw [← hpoll, hok]; simp
      have hnw : ¬ ∃ j, j < 50 ∧ w.getLockInfo j = true := by
        rw [← hworld, hok]; simp
      have ha := hafter [.log .critical
        (tr "Failed to start master process! No master lock was detected.")]
      simp only [hok, connectOnlyAfterHolder, Bool.false_or] at ha
      simp only [spawns, polls, connects] at hsp hcn hlen hnp
      simp [spawns, polls, connects, connectOnlyAfterHolder, EXIT_FAILURE, EXIT_SUCCESS,
        hsp, hcn, hlen, hnp, hnw, ha, List.filterMap_append]
    | true =>
      have hp : true ∈ polls (waitForLock w 50 0).2 := by
        rw [← hpoll, hok]
      have hw : ∃ j, j < 50 ∧ w.getLockInfo j = true := by
        rw [← hworld, hok]
      have ha := hafter [.msleep 250, .invokeMethod (.beginMasterConnect w.arguments.tail true)]
      simp only [hok, Bool.true_or] at ha
      simp only [spawns, polls, connects] at hsp hcn hlen hp
      simp [spawns, polls, connects, connectOnlyAfterHolder, EXIT_SUCCESS,
        hsp, hcn, hlen, hp, hw, ha, List.filterMap_append]

/-- C3 on a concrete run: a manual `start` with no master alive, the spawned
master's lock showing at the third read. -/
theorem startMaster_no_master_witness :
    (calmWorld ["demo", "start", "--x"]).tryLock 0 = true ∧
    (startMaster (calmWorld ["demo", "start", "--x"]) false freshApp).code = EXIT_SUCCESS ∧
    connects (startMaster (calmWorld ["demo", "start", "--x"]) false freshApp).ev
      = [(["start", "--x"], true)] ∧
    (polls (startMaster (calmWorld ["demo", "start", "--x"]) false freshApp).ev).length ≤ 50 :=
  ⟨rfl,
   ((startMaster_no_master (calmWorld ["demo", "start", "--x"]) false freshApp rfl).2.2.1.2
      (by decide)).1,
   ((startMaster_no_master (calmWorld ["demo", "start", "--x"]) false freshApp rfl).2.2.1.2
      (by decide)).2,
   (startMaster_no_master (calmWorld ["demo", "start", "--x"]) false freshApp rfl).2.1⟩

/-! ## ProbeMaster -/

/-- C4. In `testMasterRunning`, when the immediate lock attempt succeeds the
lock is released again (the attempt is followed at once by the unlock, and the
lock is not held on return), the result is `EXIT_FAILURE`, which is not zero,
nothing is spawned and no connection is scheduled; when the attempt fails,
exactly one connection is scheduled, with the original arguments without the
program name and starter = false, nothing is spawned, and the result is
`EXIT_SUCCESS`. -/
theorem testMasterRunning_probe (w : World) (d : AppPrivate) :
    (w.tryLock 0 = true →
      (testMasterRunning w d).code = EXIT_FAILURE ∧
      (testMasterRunning w d).code ≠ 0 ∧
      (testMasterRunning w d).ev.take 2 = [.tryLock 0 true, .unlock] ∧
      (testMasterRunning w d).st.lockHeld = false ∧
      spawns (testMasterRunning w d).ev = [] ∧
      connects (testMasterRunning w d).ev = []) ∧
    (w.tryLock 0 = false →
      (testMasterRunning w d).code = EXIT_SUCCESS ∧
      connects (testMasterRunning w d).ev = [(w.arguments.tail, false)] ∧
      spawns (testMasterRunning w d).ev = []) := by
  unfold testMasterRunning
  constructor
  · intro h
    simp [h, spawns, connects, EXIT_FAILURE]
  · intro h
    simp [h, spawns, connects]

/-- C4 on two concrete runs: a probe with no master alive, and a probe against
a running master. -/
theorem testMasterRunning_probe_witness :
    ((testMasterRunning (calmWorld ["demo", "status"]) freshApp).code = EXIT_FAILURE ∧
      connects (testMasterRunning (calmWorld ["demo", "status"]) freshApp).ev = []) ∧
    ((testMasterRunning (busyWorld ["demo", "status"]) freshApp).code = EXIT_SUCCESS ∧
      connects (testMasterRunning (busyWorld ["demo", "status"]) freshApp).ev
        = [(["status"], false)]) :=
  ⟨⟨((testMasterRunning_probe (calmWorld ["demo", "status"]) freshApp).1 rfl).1,
    ((testMasterRunning_probe (calmWorld ["demo", "status"]) freshApp).1 rfl).2.2.2.2.2⟩,
   ⟨((testMasterRunning_probe (busyWorld ["demo", "status"]) freshApp).2 rfl).1,
    ((testMasterRunning_probe (busyWorld ["demo", "status"]) freshApp).2 rfl).2.1⟩⟩

/-! ## Handshake rejection -/

/-- C5. When the status load of a connection failed, or its argument list
fails the external parser, `terminalLoaded` leaves the whole master state as
it was (registry, filter rules and log file included), discards the
connection, and emits no command, no shutdown request, no logging change and
no registry-changed notification. -/
theorem terminalLoaded_rejected (w : World) (terminal : TerminalPrivate) (success : Bool)
    (d : AppPrivate) (h : success = false ∨ ∃ errorText, terminal.loaded = .error errorText) :
    (terminalLoaded w terminal success d).1 = d ∧
    discarded (terminalLoaded w terminal success d).2 = [terminal.ident] ∧
    commands (terminalLoaded w terminal success d).2 = [] ∧
    shutdownRequests (terminalLoaded w terminal success d).2 = [] ∧
    loggingChanges (terminalLoaded w terminal success d).2 = [] ∧
    registryNotices (terminalLoaded w terminal success d).2 = [] := by
  unfold terminalLoaded
  cases success with
  | false => simp [discarded, commands, shutdownRequests, loggingChanges, registryNotices]
  | true =>
    rcases h with h | ⟨e, he⟩
    · exact absurd h (by decide)
    · simp [he, discarded, commands, shutdownRequests, loggingChanges, registryNotices]

/-- C5 on a concrete connection: an argument list the parser rejects, arriving
while one terminal is retained. -/
theorem terminalLoaded_rejected_witness :
    (terminalLoaded (calmWorld ["demo"])
        { ident := 7, isStarter := false, loaded := .error "Unknown option 'q'." } true
        { freshApp with activeTerminals := [3] }).1 = { freshApp with activeTerminals := [3] } ∧
    commands (terminalLoaded (calmWorld ["demo"])
        { ident := 7, isStarter := false, loaded := .error "Unknown option 'q'." } true
        { freshApp with activeTerminals := [3] }).2 = [] :=
  ⟨(terminalLoaded_rejected (calmWorld ["demo"])
      { ident := 7, isStarter := false, loaded := .error "Unknown option 'q'." } true
      { freshApp with activeTerminals := [3] } (Or.inr ⟨_, rfl⟩)).1,
   (terminalLoaded_rejected (calmWorld ["demo"])
      { ident := 7, isStarter := false, loaded := .error "Unknown option 'q'." } true
      { freshApp with activeTerminals := [3] } (Or.inr ⟨_, rfl⟩)).2.2.1⟩

/-! ## Stop handling -/

/-- The function `updateLoggingMode` touches the filter rules only and emits
logging changes only. -/
theorem updateLoggingMode_frame (level : Int) (d : AppPrivate) :
    (updateLoggingMode level d).1.activeTerminals = d.activeTerminals ∧
    (updateLoggingMode level d).1.autoKill = d.autoKill ∧
    commands (updateLoggingMode level d).2 = [] ∧
    shutdownRequests (updateLoggingMode level d).2 = [] ∧
    flushes (updateLoggingMode level d).2 = [] ∧
    exits (updateLoggingMode level d).2 = [] := by
  unfold updateLoggingMode
  split <;> simp [commands, shutdownRequests, flushes, exits]

/-- The function `updateLoggingPath` touches the log file only and emits
logging changes only. -/
theorem updateLoggingPath_frame (w : World) (path : String) (d : AppPrivate) :
    (updateLoggingPath w path d).1.activeTerminals = d.activeTerminals ∧
    (updateLoggingPath w path d).1.autoKill = d.autoKill ∧
    commands (updateLoggingPath w path d).2 = [] ∧
    shutdownRequests (updateLoggingPath w path d).2 = [] ∧
    flushes (updateLoggingPath w path d).2 = [] ∧
    exits (updateLoggingPath w path d).2 = [] := by
  unfold updateLoggingPath
  by_cases hp : path = "" <;> cases hl : d.logFile <;>
    simp [hp, hl, commands, shutdownRequests, flushes, exits]

/-- The function `stopMaster` never changes the master state; when the host
refuses it emits the request alone, when the host accepts it emits the
request, one flush per registered terminal in registry order, and then one
deferred exit with the code the host left in the slot. -/
theorem stopMaster_spec (w : World) (term : Nat) (d : AppPrivate) :
    (stopMaster w term d).1 = d ∧
    (stopMaster w term d).2 =
      .requestAppShutdown term ::
        (if (w.requestAppShutdown term EXIT_SUCCESS).1 then
          d.activeTerminals.map Event.flush ++
            [.invokeMethod (.doExit (w.requestAppShutdown term EXIT_SUCCESS).2)]
         else []) := by
  unfold stopMaster
  cases h : (w.requestAppShutdown term EXIT_SUCCESS).1 <;> simp [h]

/-- Reading the flushes off a list of flush events gives the terminals back. -/
theorem flushes_map_flush (ts : List Nat) : flushes (ts.map Event.flush) = ts := by
  induction ts with
  | nil => rfl
  | cons t ts ih =>
    simp only [flushes, List.map_cons, List.filterMap_cons] at ih ⊢
    rw [ih]

/-- A list of flush events holds no command, shutdown request or exit. -/
theorem map_flush_quiet (ts : List Nat) :
    commands (ts.map Event.flush) = [] ∧ shutdownRequests (ts.map Event.flush) = [] ∧
    exits (ts.map Event.flush) = [] := by
  induction ts with
  | nil => exact ⟨rfl, rfl, rfl⟩
  | cons t ts ih =>
    simp only [commands, shutdownRequests, exits, List.map_cons, List.filterMap_cons] at ih ⊢
    exact ih

/-- The logging block of `terminalLoaded` leaves registry and policies alone
and emits no command, shutdown request, flush or exit. -/
theorem loggingDirectives_frame (w : World) (parser : QCommandLineParser) (d : AppPrivate) :
    (loggingDirectives w parser d).1.activeTerminals = d.activeTerminals ∧
    (loggingDirectives w parser d).1.autoKill = d.autoKill ∧
    commands (loggingDirectives w parser d).2 = [] ∧
    shutdownRequests (loggingDirectives w parser d).2 = [] ∧
    flushes (loggingDirectives w parser d).2 = [] ∧
    exits (loggingDirectives w parser d).2 = [] := by
  unfold loggingDirectives
  by_cases c1 : parser.isSet "loglevel" = true <;>
    by_cases c2 : parser.isSet "logpath" = true
  · obtain ⟨a1, a2, a3, a4, a5, a6⟩ :=
      updateLoggingMode_frame (w.toInt (parser.value "loglevel")) d
    obtain ⟨b1, b2, b3, b4, b5, b6⟩ := updateLoggingPath_frame w (parser.value "logpath")
      (updateLoggingMode (w.toInt (parser.value "loglevel")) d).1
    simp only [commands, shutdownRequests, flushes, exits] at a3 a4 a5 a6 b3 b4 b5 b6
    simp [c1, c2, commands, shutdownRequests, flushes, exits, List.filterMap_append,
      a1, a2, a3, a4, a5, a6, b1, b2, b3, b4, b5, b6]
  · obtain ⟨a1, a2, a3, a4, a5, a6⟩ :=
      updateLoggingMode_frame (w.toInt (parser.value "loglevel")) d
    simp only [commands, shutdownRequests, flushes, exits] at a3 a4 a5 a6
    simp [c1, c2, commands, shutdownRequests, flushes, exits, a1, a2, a3, a4, a5, a6]
  · obtain ⟨b1, b2, b3, b4, b5, b6⟩ := updateLoggingPath_frame w (parser.value "logpath") d
    simp only [commands, shutdownRequests, flushes, exits] at b3 b4 b5 b6
    simp [c1, c2, commands, shutdownRequests, flushes, exits, b1, b2, b3, b4, b5, b6]
  · simp [c1, c2, commands, shutdownRequests, flushes, exits]

/-- C6. For a validated terminal, the events of `terminalLoaded` are: a
prefix without command, shutdown request, flush or exit; the dispatch of the
command; the stop step; the detach or retain step. The stop step is empty
unless the first positional argument is `stop`; then it is one request to the
host's shutdown hook, followed, when the host accepts, by one flush per
terminal of the registry and then one deferred exit carrying the code the
host left in the slot, which held `EXIT_SUCCESS` when the hook was called.
So the hook is asked once for `stop` and never otherwise, and on refusal
nothing is flushed and no exit is scheduled. The stop step leaves the master
state, registry included, as it was. -/
theorem terminalLoaded_stop (w : World) (terminal : TerminalPrivate)
    (parser : QCommandLineParser) (d : AppPrivate) (h : terminal.loaded = .ok parser) :
    (∃ pre,
      (terminalLoaded w terminal true d).2 =
        pre ++ .commandReceived parser terminal.isStarter ::
          ((if parser.positionalArguments.head? = some "stop" then
              .requestAppShutdown terminal.ident ::
                (if (w.requestAppShutdown terminal.ident EXIT_SUCCESS).1 then
                  d.activeTerminals.map Event.flush ++
                    [.invokeMethod
                      (.doExit (w.requestAppShutdown terminal.ident EXIT_SUCCESS).2)]
                 else [])
            else []) ++
           (if d.autoKill || parser.isSet "detached" then
              [.setAutoDelete terminal.ident true, .disconnectTerminal terminal.ident]
            else
              [.connectDestroyed terminal.ident,
               .connectedTerminalsChanged (d.activeTerminals ++ [terminal.ident]),
               .newTerminalConnected terminal.ident])) ∧
      commands pre = [] ∧ shutdownRequests pre = [] ∧ flushes pre = [] ∧ exits pre = []) ∧
    shutdownRequests (terminalLoaded w terminal true d).2 =
      (if parser.positionalArguments.head? = some "stop" then [terminal.ident] else []) ∧
    flushes (terminalLoaded w terminal true d).2 =
      (if parser.positionalArguments.head? = some "stop" ∧
          (w.requestAppShutdown terminal.ident EXIT_SUCCESS).1 = true
        then d.activeTerminals else []) ∧
    exits (terminalLoaded w terminal true d).2 =
      (if parser.positionalArguments.head? = some "stop" ∧
          (w.requestAppShutdown terminal.ident EXIT_SUCCESS).1 = true
        then [(w.requestAppShutdown terminal.ident EXIT_SUCCESS).2] else []) ∧
    (∀ d0, (stopMaster w terminal.ident d0).1 = d0) := by
  obtain ⟨f1, f2, f3, f4, f5, f6⟩ := loggingDirectives_frame w parser d
  have hstop : ∀ args : List String,
      (!args.isEmpty && args.head? == some "stop") = decide (args.head? = some "stop") := by
    intro args
    cases args with
    | nil => simp
    | cons a rest =>
      by_cases ha : a = "stop"
      · subst ha; simp
      · simp [ha]
  have hflush := flushes_map_flush d.activeTerminals
  obtain ⟨q1, q2, q3⟩ := map_flush_quiet d.activeTerminals
  have key : (terminalLoaded w terminal true d).2 =
      (.setupParser terminal.ident :: ((loggingDirectives w parser d).2 ++
          [.setAutoDelete terminal.ident (loggingDirectives w parser d).1.autoDelete])) ++
        .commandReceived parser terminal.isStarter ::
          ((if parser.positionalArguments.head? = some "stop" then
              .requestAppShutdown terminal.ident ::
                (if (w.requestAppShutdown terminal.ident EXIT_SUCCESS).1 then
                  d.activeTerminals.map Event.flush ++
                    [.invokeMethod
                      (.doExit (w.requestAppShutdown terminal.ident EXIT_SUCCESS).2)]
                 else [])
            else []) ++
           (if d.autoKill || parser.isSet "detached" then
              [.setAutoDelete terminal.ident true, .disconnectTerminal terminal.ident]
            else
              [.connectDestroyed terminal.ident,
               .connectedTerminalsChanged (d.activeTerminals ++ [terminal.ident]),
               .newTerminalConnected terminal.ident])) := by
    unfold terminalLoaded
    simp only [h, if_true, hstop]
    by_cases hs : parser.positionalArguments.head? = some "stop"
    · simp only [hs, decide_True, if_true, (stopMaster_spec w terminal.ident _).1,
        (stopMaster_spec w terminal.ident _).2, f1, f2]
      by_cases hk : (d.autoKill || parser.isSet "detached") = true
      · simp [hk]
      · simp [hk]
    · simp only [hs, decide_False, if_false, Bool.false_eq_true, f1, f2]
      by_cases hk : (d.autoKill || parser.isSet "detached") = true
      · simp [hk]
      · simp [hk]
  refine ⟨⟨_, key, ?_, ?_, ?_, ?_⟩, ?_, ?_, ?_, fun d0 => (stopMaster_spec w terminal.ident d0).1⟩
  · simp only [commands] at f3 ⊢
    simp [List.filterMap_append, f3]
  · simp only [shutdownRequests] at f4 ⊢
    simp [List.filterMap_append, f4]
  · simp only [flushes] at f5 ⊢
    simp [List.filterMap_append, f5]
  · simp only [exits] at f6 ⊢
    simp [List.filterMap_append, f6]
  · rw [key]
    simp only [shutdownRequests] at f4 q2 ⊢
    by_cases hs : parser.positionalArguments.head? = some "stop" <;>
      by_cases ha : (w.requestAppShutdown terminal.ident EXIT_SUCCESS).1 = true <;>
      by_cases hk : (d.autoKill || parser.isSet "detached") = true <;>
      simp [hs, ha, hk, List.filterMap_append, f4, q2]
  · rw [key]
    simp only [flushes] at f5 hflush ⊢
    by_cases hs : parser.positionalArguments.head? = some "stop" <;>
      by_cases ha : (w.requestAppShutdown terminal.ident EXIT_SUCCESS).1 = true <;>
      by_cases hk : (d.autoKill || parser.isSet "detached") = true <;>
      simp [hs, ha, hk, List.filterMap_append, f5, hflush]
  · rw [key]
    simp only [exits] at f6 q3 ⊢
    by_cases hs : parser.positionalArguments.head? = some "stop" <;>
      by_cases ha : (w.requestAppShutdown terminal.ident EXIT_SUCCESS).1 = true <;>
      by_cases hk : (d.autoKill || parser.isSet "detached") = true <;>
      simp [hs, ha, hk, List.filterMap_append, f6, q3]

/-- C6 on a concrete connection: `stop` arrives while terminals 3 and 5 are
retained and the host accepts: one request, both terminals flushed, one exit
with `EXIT_SUCCESS`. -/
theorem terminalLoaded_stop_witness :
    stopTerminal.loaded = .ok (positionalOnly ["stop"]) ∧
    shutdownRequests (terminalLoaded (calmWorld ["demo"]) stopTerminal true
        { freshApp with activeTerminals := [3, 5] }).2 = [7] ∧
    flushes (terminalLoaded (calmWorld ["demo"]) stopTerminal true
        { freshApp with activeTerminals := [3, 5] }).2 = [3, 5] ∧
    exits (terminalLoaded (calmWorld ["demo"]) stopTerminal true
        { freshApp with activeTerminals := [3, 5] }).2 = [EXIT_SUCCESS] :=
  ⟨rfl,
   (terminalLoaded_stop (calmWorld ["demo"]) stopTerminal (positionalOnly ["stop"])
      { freshApp with activeTerminals := [3, 5] } rfl).2.1.trans (by decide),
   (terminalLoaded_stop (calmWorld ["demo"]) stopTerminal (positionalOnly ["stop"])
      { freshApp with activeTerminals := [3, 5] } rfl).2.2.1.trans (by decide),
   (terminalLoaded_stop (calmWorld ["demo"]) stopTerminal (positionalOnly ["stop"])
      { freshApp with activeTerminals := [3, 5] } rfl).2.2.2.1.trans (by decide)⟩

/-! ## Purge -/

/-- The answer character equals a one-character text exactly when it is that
character. -/
theorem singleton_eq_iff (c a : Char) : String.singleton c = String.mk [a] ↔ c = a := by
  constructor
  · intro h
    have := congrArg String.data h
    simpa [String.singleton] using this
  · rintro rfl; rfl

/-- C7, as the code has it. Once purge is confirmed (the accept flag is set,
or the answer is `y` or `Y`), `purgeMaster` attempts exactly once to remove
the endpoint named by the instance id, and attempts to remove the lock file
exactly when holder info could be read. The failure bits collected are: bit
0x02 if and only if a lock was found and its removal failed, bit 0x04 if and
only if the endpoint removal failed, and no other bit. The value returned is
that bit set when it is not zero, and the sentinel -1 when it is zero, that
is when neither failure occurred. When purge is not confirmed nothing is
removed and the result is `EXIT_FAILURE`. -/
theorem purgeMaster_code (w : World) (parser : QCommandLineParser) (d : AppPrivate) :
    ((parser.isSet "accept" = true ∨ w.cinGet = 'y' ∨ w.cinGet = 'Y') →
      serverRemovals (purgeMaster w parser d).ev
        = [(d.instanceId, w.removeServer d.instanceId)] ∧
      lockRemovals (purgeMaster w parser d).ev
        = (if w.getLockInfo 0 then [w.removeStaleLockFile] else []) ∧
      ∃ res : Nat,
        (res.testBit 1 = true ↔ (w.getLockInfo 0 = true ∧ w.removeStaleLockFile = false)) ∧
        (res.testBit 2 = true ↔ w.removeServer d.instanceId = false) ∧
        (∀ i, i ≠ 1 → i ≠ 2 → res.testBit i = false) ∧
        (purgeMaster w parser d).code = (if res = 0 then -1 else (res : Int))) ∧
    (¬ (parser.isSet "accept" = true ∨ w.cinGet = 'y' ∨ w.cinGet = 'Y') →
      (purgeMaster w parser d).code = EXIT_FAILURE ∧
      lockRemovals (purgeMaster w parser d).ev = [] ∧
      serverRemovals (purgeMaster w parser d).ev = []) := by
  have hy : ∀ a : Char, (String.singleton w.cinGet ≠ tr (String.mk [a])) ↔ w.cinGet ≠ a := by
    intro a
    simp only [tr, ne_eq, singleton_eq_iff]
  have hy1 := hy 'y'
  have hy2 := hy 'Y'
  have hlit1 : String.mk ['y'] = "y" := rfl
  have hlit2 : String.mk ['Y'] = "Y" := rfl
  rw [hlit1] at hy1
  rw [hlit2] at hy2
  have hother : ∀ res : Nat, res < 8 → res % 2 = 0 →
      ∀ i, i ≠ 1 → i ≠ 2 → res.testBit i = false := by
    intro res hlt hev i h1 h2
    rcases i with _ | _ | _ | i
    · simp [Nat.testBit_zero, hev]
    · exact absurd rfl h1
    · exact absurd rfl h2
    · apply Nat.testBit_lt_two_pow
      calc res < 2 ^ 3 := hlt
        _ ≤ 2 ^ (i + 1 + 1 + 1) := Nat.pow_le_pow_right (by decide) (by omega)
  constructor
  · intro hc
    have hgo : ¬ ((!parser.isSet "accept") = true ∧
        (String.singleton w.cinGet ≠ tr "y" ∧ String.singleton w.cinGet ≠ tr "Y")) := by
      rw [hy1, hy2]
      rintro ⟨ha, h1, h2⟩
      rcases hc with hc | hc | hc
      · simp [hc] at ha
      · exact h1 hc
      · exact h2 hc
    unfold purgeMaster
    rw [if_neg hgo]
    refine ⟨?_, ?_, ?_⟩
    · cases parser.isSet "accept" <;> cases w.getLockInfo 0 <;> simp [serverRemovals]
    · cases parser.isSet "accept" <;> cases w.getLockInfo 0 <;> simp [lockRemovals]
    · cases hf : w.getLockInfo 0 <;> cases hr : w.removeStaleLockFile <;>
        cases hs : w.removeServer d.instanceId
      · exact ⟨4, by decide, by decide, hother 4 (by decide) rfl, by simp⟩
      · exact ⟨0, by decide, by decide, hother 0 (by decide) rfl, by simp⟩
      · exact ⟨4, by decide, by decide, hother 4 (by decide) rfl, by simp⟩
      · exact ⟨0, by decide, by decide, hother 0 (by decide) rfl, by simp⟩
      · exact ⟨6, by decide, by decide, hother 6 (by decide) rfl, by simp⟩
      · exact ⟨2, by decide, by decide, hother 2 (by decide) rfl, by simp⟩
      · exact ⟨4, by decide, by decide, hother 4 (by decide) rfl, by simp⟩
      · exact ⟨0, by decide, by decide, hother 0 (by decide) rfl, by simp⟩
  · intro hc
    have hstop : (!parser.isSet "accept") = true ∧
        (String.singleton w.cinGet ≠ tr "y" ∧ String.singleton w.cinGet ≠ tr "Y") := by
      rw [hy1, hy2]
      refine ⟨?_, fun h => hc (Or.inr (Or.inl h)), fun h => hc (Or.inr (Or.inr h))⟩
      cases ha : parser.isSet "accept"
      · rfl
      · exact absurd (Or.inl ha) hc
    unfold purgeMaster
    rw [if_pos hstop]
    simp [hstop.1, lockRemovals, serverRemovals]

/-- C7 as amended, on two concrete runs: an accepted purge makes its one
attempt on the endpoint of the instance id; a purge answered with `n` returns
`EXIT_FAILURE` and removes nothing. -/
theorem purgeMaster_code_witness :
    serverRemovals (purgeMaster { busyWorld ["demo", "purge_master", "--accept"] with
        removeStaleLockFile := false, removeServer := fun _ => false }
      purgeAccepted freshApp).ev = [("qbackproc-demo-0-3e8", false)] ∧
    ((purgeMaster { calmWorld ["demo", "purge_master"] with cinGet := 'n' }
        (positionalOnly ["purge_master"]) freshApp).code = EXIT_FAILURE ∧
     serverRemovals (purgeMaster { calmWorld ["demo", "purge_master"] with cinGet := 'n' }
        (positionalOnly ["purge_master"]) freshApp).ev = []) :=
  ⟨((purgeMaster_code { busyWorld ["demo", "purge_master", "--accept"] with
        removeStaleLockFile := false, removeServer := fun _ => false }
      purgeAccepted freshApp).1 (Or.inl (by decide))).1,
   ⟨((purgeMaster_code { calmWorld ["demo", "purge_master"] with cinGet := 'n' }
        (positionalOnly ["purge_master"]) freshApp).2 (by decide)).1,
    ((purgeMaster_code { calmWorld ["demo", "purge_master"] with cinGet := 'n' }
        (positionalOnly ["purge_master"]) freshApp).2 (by decide)).2.2⟩⟩

/-- C7 as stated fails: an accepted purge that finds no lock file and removes
the endpoint returns -1, not 0, and bit 0x02 of that value is set although no
lock was found. -/
theorem purgeMaster_success_is_minus_one :
    purgeAccepted.isSet "accept" = true ∧
    (calmWorld ["demo", "purge_master", "--accept"]).getLockInfo 0 = false ∧
    (calmWorld ["demo", "purge_master", "--accept"]).removeServer freshApp.instanceId = true ∧
    (purgeMaster (calmWorld ["demo", "purge_master", "--accept"]) purgeAccepted
        freshApp).code = -1 ∧
    (purgeMaster (calmWorld ["demo", "purge_master", "--accept"]) purgeAccepted
        freshApp).code ≠ 0 ∧
    Int.testBit (purgeMaster (calmWorld ["demo", "purge_master", "--accept"]) purgeAccepted
        freshApp).code 1 = true := by
  decide

/-! ## BecomeMaster -/

/-- The function `updateLoggingMode` leaves lock and listener alone. -/
theorem updateLoggingMode_lock (level : Int) (d : AppPrivate) :
    (updateLoggingMode level d).1.instanceId = d.instanceId ∧
    (updateLoggingMode level d).1.lockHeld = d.lockHeld ∧
    (updateLoggingMode level d).1.listening = d.listening ∧
    lockAttempts (updateLoggingMode level d).2 = [] ∧
    listens (updateLoggingMode level d).2 = [] := by
  unfold updateLoggingMode
  split <;> simp [lockAttempts, listens]

/-- The function `updateLoggingPath` leaves lock and listener alone. -/
theorem updateLoggingPath_lock (w : World) (path : String) (d : AppPrivate) :
    (updateLoggingPath w path d).1.instanceId = d.instanceId ∧
    (updateLoggingPath w path d).1.lockHeld = d.lockHeld ∧
    (updateLoggingPath w path d).1.listening = d.listening ∧
    lockAttempts (updateLoggingPath w path d).2 = [] ∧
    listens (updateLoggingPath w path d).2 = [] := by
  unfold updateLoggingPath
  by_cases hp : path = "" <;> cases hl : d.logFile <;>
    simp [hp, hl, lockAttempts, listens]

/-- C8, as the code has it. `makeMaster` first binds the endpoint named by
the instance id, and attempts the lock, once and with a 5000 ms bound, only
after the endpoint was bound successfully. The result is `EXIT_FAILURE` when
the endpoint cannot be bound or the lock is not obtained, and otherwise
exactly the startup hook's return value. For a process that does not hold the
lock on entry: whenever the result differs from `EXIT_SUCCESS` the listener is
not listening and the lock is not held on return; when the result is
`EXIT_SUCCESS` the endpoint of the instance id was bound, the listener is
listening and the lock is held. -/
theorem makeMaster_spec (w : World) (parser : QCommandLineParser) (d : AppPrivate)
    (h0 : d.lockHeld = false) :
    listens (makeMaster w parser d).ev = [(d.instanceId, w.listen d.instanceId)] ∧
    lockAttempts (makeMaster w parser d).ev =
      (if w.listen d.instanceId then [(5000, w.tryLock 5000)] else []) ∧
    lockOnlyAfterListen (makeMaster w parser d).ev = true ∧
    ((w.listen d.instanceId = false ∨ w.tryLock 5000 = false) →
      (makeMaster w parser d).code = EXIT_FAILURE) ∧
    (w.listen d.instanceId = true → w.tryLock 5000 = true →
      (makeMaster w parser d).code = w.startupApp parser) ∧
    ((makeMaster w parser d).code ≠ EXIT_SUCCESS →
      (makeMaster w parser d).st.listening = false ∧
      (makeMaster w parser d).st.lockHeld = false) ∧
    ((makeMaster w parser d).code = EXIT_SUCCESS →
      (d.instanceId, true) ∈ listens (makeMaster w parser d).ev ∧
      (makeMaster w parser d).st.instanceId = d.instanceId ∧
      (makeMaster w parser d).st.listening = true ∧
      (makeMaster w parser d).st.lockHeld = true) := by
  unfold makeMaster
  cases hl : w.listen d.instanceId with
  | false =>
    simp [listens, lockAttempts, lockOnlyAfterListen, EXIT_FAILURE, EXIT_SUCCESS, h0]
  | true =>
    cases ht : w.tryLock 5000 with
    | false =>
      simp [listens, lockAttempts, lockOnlyAfterListen, EXIT_FAILURE, EXIT_SUCCESS, h0]
    | true =>
      have e0 : ({ d with listening := true, lockHeld := true } : AppPrivate).instanceId
          = d.instanceId := rfl
      have e1 : ({ d with listening := true, lockHeld := true } : AppPrivate).lockHeld
          = true := rfl
      have e2 : ({ d with listening := true, lockHeld := true } : AppPrivate).listening
          = true := rfl
      have e3 : ({ d with listening := true, lockHeld := true } : AppPrivate).masterLogging
          = d.masterLogging := rfl
      dsimp only
      generalize ({ d with listening := true, lockHeld := true } : AppPrivate) = d1 at e0 e1 e2 e3 ⊢
      obtain ⟨a0, a1, a2, a3, a4⟩ :=
        updateLoggingMode_lock (w.toInt (parser.value "loglevel")) d1
      generalize updateLoggingMode (w.toInt (parser.value "loglevel")) d1 = m at a0 a1 a2 a3 a4 ⊢
      obtain ⟨b0, b1, b2, b3, b4⟩ := updateLoggingPath_lock w (parser.value "logpath") m.1
      generalize updateLoggingPath w (parser.value "logpath") m.1 = l at b0 b1 b2 b3 b4 ⊢
      rw [a0, e0] at b0
      rw [a1, e1] at b1
      rw [a2, e2] at b2
      simp only [lockAttempts, listens] at a3 a4 b3 b4
      by_cases hr : w.startupApp parser = EXIT_SUCCESS <;>
        cases hm : d1.masterLogging <;> cases hn : parser.isSet "no-daemon" <;>
        simp [hr, hm, hn, listens, lockAttempts, lockOnlyAfterListen, List.filterMap_append,
          a3, a4, b0, b1, b2, b3, b4]

/-- C8 as amended, on two concrete runs of a fresh process told to become the
master: with everything succeeding the result is `EXIT_SUCCESS`, listener
listening and lock held; with a startup hook answering 3 the result is 3,
listener closed and lock released. -/
theorem makeMaster_spec_witness :
    freshApp.lockHeld = false ∧
    ((makeMaster (calmWorld ["demo", masterArgument]) (positionalOnly [masterArgument])
        freshApp).code = EXIT_SUCCESS ∧
     (makeMaster (calmWorld ["demo", masterArgument]) (positionalOnly [masterArgument])
        freshApp).st.listening = true ∧
     (makeMaster (calmWorld ["demo", masterArgument]) (positionalOnly [masterArgument])
        freshApp).st.lockHeld = true) ∧
    ((makeMaster { calmWorld ["demo", masterArgument] with startupApp := fun _ => 3 }
        (positionalOnly [masterArgument]) freshApp).code = 3 ∧
     (makeMaster { calmWorld ["demo", masterArgument] with startupApp := fun _ => 3 }
        (positionalOnly [masterArgument]) freshApp).st.listening = false ∧
     (makeMaster { calmWorld ["demo", masterArgument] with startupApp := fun _ => 3 }
        (positionalOnly [masterArgument]) freshApp).st.lockHeld = false) :=
  ⟨rfl,
   ⟨(makeMaster_spec (calmWorld ["demo", masterArgument]) (positionalOnly [masterArgument])
        freshApp rfl).2.2.2.2.1 rfl rfl,
    ((makeMaster_spec (calmWorld ["demo", masterArgument]) (positionalOnly [masterArgument])
        freshApp rfl).2.2.2.2.2.2 (by decide)).2.2.1,
    ((makeMaster_spec (calmWorld ["demo", masterArgument]) (positionalOnly [masterArgument])
        freshApp rfl).2.2.2.2.2.2 (by decide)).2.2.2⟩,
   ⟨(makeMaster_spec { calmWorld ["demo", masterArgument] with startupApp := fun _ => 3 }
        (positionalOnly [masterArgument]) freshApp rfl).2.2.2.2.1 rfl rfl,
    ((makeMaster_spec { calmWorld ["demo", masterArgument] with startupApp := fun _ => 3 }
        (positionalOnly [masterArgument]) freshApp rfl).2.2.2.2.2.1 (by decide)).1,
    ((makeMaster_spec { calmWorld ["demo", masterArgument] with startupApp := fun _ => 3 }
        (positionalOnly [masterArgument]) freshApp rfl).2.2.2.2.2.1 (by decide)).2⟩⟩

/-- C8 as stated fails: the endpoint is bound before any lock attempt. In a
run where everything succeeds the first two events are the bind and then the
lock attempt; in a run where the lock is taken by another process the endpoint
was bound although the lock was never acquired. -/
theorem makeMaster_listens_before_lock :
    listenOnlyAfterLock (makeMaster (calmWorld ["demo", masterArgument])
        (positionalOnly [masterArgument]) freshApp).ev = false ∧
    (makeMaster (calmWorld ["demo", masterArgument])
        (positionalOnly [masterArgument]) freshApp).ev.take 2
      = [.listen "qbackproc-demo-0-3e8" true, .tryLock 5000 true] ∧
    listens (makeMaster (busyWorld ["demo", masterArgument])
        (positionalOnly [masterArgument]) freshApp).ev = [("qbackproc-demo-0-3e8", true)] ∧
    lockAttempts (makeMaster (busyWorld ["demo", masterArgument])
        (positionalOnly [masterArgument]) freshApp).ev = [(5000, false)] := by
  decide

/-! ## Instance identifier -/

/-- The characters `generateSingleId` keeps are the ASCII letters, the digits
and the underscore. -/
theorem keptInId_eq (c : Char) : keptInId c = (c.isAlphanum || c == '_') := by
  simp only [keptInId, Char.isAlphanum, Char.isAlpha, Char.isUpper, Char.isLower, Char.isDigit]
  have h1 : decide ('a' ≤ c) = decide (c.val ≥ 97) := rfl
  have h2 : decide (c ≤ 'z') = decide (c.val ≤ 122) := rfl
  have h3 : decide ('A' ≤ c) = decide (c.val ≥ 65) := rfl
  have h4 : decide (c ≤ 'Z') = decide (c.val ≤ 90) := rfl
  have h5 : decide ('0' ≤ c) = decide (c.val ≥ 48) := rfl
  have h6 : decide (c ≤ '9') = decide (c.val ≤ 57) := rfl
  rw [h1, h2, h3, h4, h5, h6]
  cases decide (c.val ≥ 97) <;> cases decide (c.val ≤ 122) <;> cases decide (c.val ≥ 65) <;>
    cases decide (c.val ≤ 90) <;> rfl

/-- C9, as the code has it. The identifier computed by `generateSingleId` is
determined by application name, organization name, organization domain, seed
and OS session or user id: it is `qbackproc-` + N + `-` + hex(checksum of the
UTF-8 bytes of organization name + organization domain + seed) + `-` + hex(OS
id), the last part being empty when the Windows session id cannot be read. N
is the lower-cased application name with every character other than an ASCII
letter, a digit or an underscore stripped, cut to at most 8 characters; so N
has at most 8 characters, each of them alphanumeric or an underscore. -/
theorem generateSingleId_form (q : QtText)
    (applicationName organizationName organizationDomain : String) (sess : Option Nat)
    (seed : String) :
    generateSingleId q applicationName organizationName organizationDomain sess seed =
      "qbackproc-" ++ String.mk (((q.toLower applicationName).data.filter keptInId).take 8)
        ++ "-" ++ hex (q.qChecksum (toUtf8 (organizationName ++ organizationDomain ++ seed)))
        ++ "-" ++ (match sess with
                   | some id => hex id
                   | none => "") ∧
    (((q.toLower applicationName).data.filter keptInId).take 8).length ≤ 8 ∧
    ∀ c ∈ ((q.toLower applicationName).data.filter keptInId).take 8,
      c.isAlphanum = true ∨ c = '_' := by
  refine ⟨?_, ?_, ?_⟩
  · unfold generateSingleId
    cases sess with
    | none => simp [String.append_assoc]
    | some id => simp [String.append_assoc]
  · exact List.length_take_le 8 _
  · intro c hc
    have hmem := List.mem_of_mem_take hc
    have hk : keptInId c = true := (List.mem_filter.mp hmem).2
    rw [keptInId_eq] at hk
    simpa using hk

/-- C9 as amended, evaluated: application `My_App-Name` of organization `org`,
domain `org.example`, seed `seed`, user id 1000. -/
theorem generateSingleId_form_witness :
    generateSingleId qtAscii "My_App-Name" "org" "org.example" (some 1000) "seed"
      = "qbackproc-my_appna-258e-3e8" :=
  (generateSingleId_form qtAscii "My_App-Name" "org" "org.example" (some 1000) "seed").1.trans
    (by decide)

/-- C9 as stated fails: for the application name `my_app` the underscore is
not stripped, so the identifier differs from the one the stated form gives. -/
theorem generateSingleId_keeps_underscore :
    generateSingleId qtAscii "my_app" "" "" (some 1000) "" = "qbackproc-my_app-0-3e8" ∧
    specSingleId qtAscii "my_app" "" "" 1000 "" = "qbackproc-myapp-0-3e8" ∧
    generateSingleId qtAscii "my_app" "" "" (some 1000) ""
      ≠ specSingleId qtAscii "my_app" "" "" 1000 "" := by
  decide

/-! ## Arguments of the spawned master -/

/-- With no master alive `startMaster` makes its one spawn attempt with the
master sentinel followed by the current arguments, from which a manual start
first removes the first argument equal to `start`. -/
theorem startMaster_spawn_arguments (w : World) (isAutoStart : Bool) (d : AppPrivate)
    (h : w.tryLock 0 = true) :
    (spawns (startMaster w isAutoStart d).ev).map Prod.fst =
      [masterArgument ::
        (if isAutoStart then w.arguments.tail else w.arguments.tail.erase startArgument)] := by
  have hcn := waitForLock_spawns w 50 0
  simp only [spawns] at hcn
  unfold startMaster
  simp only [h, if_true]
  cases isAutoStart <;>
    cases hs : w.startDetached (masterArgument :: w.arguments.tail.erase startArgument) <;>
    cases hs2 : w.startDetached (masterArgument :: w.arguments.tail) <;>
    cases hok : (waitForLock w 50 0).1 <;>
    simp [spawns, hs, hs2, hok, hcn, List.filterMap_append]

/-- Removing the first argument equal to `start` is removing the start token
whenever no argument in front of the start token equals `start`. -/
theorem erase_start_eq_eraseIdx (arguments : List String) (startIdx : Nat)
    (hat : arguments[startIdx]? = some startArgument)
    (hfirst : ∀ j, j < startIdx → arguments[j]? ≠ some startArgument) :
    arguments.erase startArgument = arguments.eraseIdx startIdx := by
  induction arguments generalizing startIdx with
  | nil => simp at hat
  | cons a rest ih =>
    cases startIdx with
    | zero =>
      have ha : a = startArgument := by simpa using hat
      subst ha
      simp
    | succ i =>
      have ha : a ≠ startArgument := by
        have := hfirst 0 (Nat.succ_pos i)
        simpa using this
      have hrest := ih i (by simpa using hat)
        (fun j hj => by simpa using hfirst (j + 1) (by omega))
      rw [List.erase_cons_tail (by simpa using ha), List.eraseIdx_cons_succ, hrest]

/-- C10 fails on the code. For `demo --logpath start --detached start` role
detection runs a manual start; with no master alive the spawned master is
given the sentinel, `--logpath`, `--detached`, `start`: the value of
`--logpath` was removed and the start token kept, where the claim has the
start token (position 3) removed and the option value kept. -/
theorem startMaster_removes_option_value :
    initControlFlow (calmWorld ["demo", "--logpath", "start", "--detached", "start"])
        logpathStart freshApp
      = startMaster (calmWorld ["demo", "--logpath", "start", "--detached", "start"])
          false freshApp ∧
    spawns (startMaster (calmWorld ["demo", "--logpath", "start", "--detached", "start"])
        false freshApp).ev
      = [([masterArgument, "--logpath", "--detached", "start"], true)] ∧
    specSpawnArguments false ["--logpath", "start", "--detached", "start"] 3
      = [masterArgument, "--logpath", "start", "--detached"] ∧
    (spawns (startMaster (calmWorld ["demo", "--logpath", "start", "--detached", "start"])
        false freshApp).ev).map Prod.fst
      ≠ [specSpawnArguments false ["--logpath", "start", "--detached", "start"] 3] := by
  decide

/-! ## Terminal disposition and the registry -/

/-- The function `updateLoggingMode` emits no registry notice and
disconnects nothing. -/
theorem updateLoggingMode_registry (level : Int) (d : AppPrivate) :
    registryNotices (updateLoggingMode level d).2 = [] ∧
    disconnects (updateLoggingMode level d).2 = [] := by
  unfold updateLoggingMode
  split <;> simp [registryNotices, disconnects]

/-- The function `updateLoggingPath` emits no registry notice and
disconnects nothing. -/
theorem updateLoggingPath_registry (w : World) (path : String) (d : AppPrivate) :
    registryNotices (updateLoggingPath w path d).2 = [] ∧
    disconnects (updateLoggingPath w path d).2 = [] := by
  unfold updateLoggingPath
  by_cases hp : path = "" <;> cases hl : d.logFile <;>
    simp [hp, hl, registryNotices, disconnects]

/-- The logging block of `terminalLoaded` emits no registry notice and
disconnects nothing. -/
theorem loggingDirectives_registry (w : World) (parser : QCommandLineParser) (d : AppPrivate) :
    registryNotices (loggingDirectives w parser d).2 = [] ∧
    disconnects (loggingDirectives w parser d).2 = [] := by
  unfold loggingDirectives
  by_cases c1 : parser.isSet "loglevel" = true <;>
    by_cases c2 : parser.isSet "logpath" = true
  · obtain ⟨a1, a2⟩ := updateLoggingMode_registry (w.toInt (parser.value "loglevel")) d
    obtain ⟨b1, b2⟩ := updateLoggingPath_registry w (parser.value "logpath")
      (updateLoggingMode (w.toInt (parser.value "loglevel")) d).1
    simp only [registryNotices, disconnects] at a1 a2 b1 b2
    simp [c1, c2, registryNotices, disconnects, List.filterMap_append, a1, a2, b1, b2]
  · obtain ⟨a1, a2⟩ := updateLoggingMode_registry (w.toInt (parser.value "loglevel")) d
    simp only [registryNotices, disconnects] at a1 a2
    simp [c1, c2, registryNotices, disconnects, a1, a2]
  · obtain ⟨b1, b2⟩ := updateLoggingPath_registry w (parser.value "logpath") d
    simp only [registryNotices, disconnects] at b1 b2
    simp [c1, c2, registryNotices, disconnects, b1, b2]
  · simp [c1, c2, registryNotices, disconnects]

/-- A list of flush events holds no registry notice and no disconnect. -/
theorem map_flush_registry (ts : List Nat) :
    registryNotices (ts.map Event.flush) = [] ∧ disconnects (ts.map Event.flush) = [] := by
  induction ts with
  | nil => exact ⟨rfl, rfl⟩
  | cons t ts ih =>
    simp only [registryNotices, disconnects, List.map_cons, List.filterMap_cons] at ih ⊢
    exact ih

/-- The function `stopMaster` emits no registry notice and disconnects
nothing. -/
theorem stopMaster_registry (w : World) (term : Nat) (d : AppPrivate) :
    registryNotices (stopMaster w term d).2 = [] ∧
    disconnects (stopMaster w term d).2 = [] := by
  obtain ⟨q1, q2⟩ := map_flush_registry d.activeTerminals
  simp only [registryNotices, disconnects] at q1 q2
  rw [(stopMaster_spec w term d).2]
  cases (w.requestAppShutdown term EXIT_SUCCESS).1 <;>
    simp [registryNotices, disconnects, List.filterMap_append, q1, q2]

/-- The disposition of a validated terminal: with the auto-kill policy on or
detached mode asked for, the registry is as before, the terminal is
disconnected and no registry notice is emitted; otherwise the terminal is put
at the end of the registry, one notice carrying the new registry is emitted,
and nothing is disconnected. -/
theorem terminalLoaded_disposition (w : World) (terminal : TerminalPrivate)
    (parser : QCommandLineParser) (d : AppPrivate) (h : terminal.loaded = .ok parser) :
    (terminalLoaded w terminal true d).1.activeTerminals =
      (if d.autoKill || parser.isSet "detached" then d.activeTerminals
       else d.activeTerminals ++ [terminal.ident]) ∧
    registryNotices (terminalLoaded w terminal true d).2 =
      (if d.autoKill || parser.isSet "detached" then []
       else [d.activeTerminals ++ [terminal.ident]]) ∧
    disconnects (terminalLoaded w terminal true d).2 =
      (if d.autoKill || parser.isSet "detached" then [terminal.ident] else []) := by
  obtain ⟨f1, f2, -, -, -, -⟩ := loggingDirectives_frame w parser d
  obtain ⟨g1, g2⟩ := loggingDirectives_registry w parser d
  obtain ⟨s1, s2⟩ := stopMaster_registry w terminal.ident (loggingDirectives w parser d).1
  have s0 := (stopMaster_spec w terminal.ident (loggingDirectives w parser d).1).1
  simp only [registryNotices, disconnects] at g1 g2 s1 s2
  unfold terminalLoaded
  simp only [h, if_true]
  by_cases hs : (!parser.positionalArguments.isEmpty &&
      parser.positionalArguments.head? == some "stop") = true <;>
    by_cases hk : (d.autoKill || parser.isSet "detached") = true <;>
    simp [hs, hk, s0, f1, f2, registryNotices, disconnects, List.filterMap_append,
      g1, g2, s1, s2]

/-- What `terminalLoaded` does to the registry, for every connection: a
retained terminal is put at the end, anything else leaves it as it was. -/
theorem terminalLoaded_registry (w : World) (terminal : TerminalPrivate) (success : Bool)
    (d : AppPrivate) :
    (terminalLoaded w terminal success d).1.activeTerminals =
      (if retains d terminal success then d.activeTerminals ++ [terminal.ident]
       else d.activeTerminals) := by
  cases success with
  | false => simp [terminalLoaded, retains]
  | true =>
    cases hl : terminal.loaded with
    | error e => simp [terminalLoaded, retains, hl]
    | ok parser =>
      rw [(terminalLoaded_disposition w terminal parser d hl).1]
      cases hk : (d.autoKill || parser.isSet "detached") <;> simp [retains, hl, hk]

/-- What the destruction of a terminal does to the registry: the first entry
equal to the terminal is erased. -/
theorem step_destroyed_registry (w : World) (d : AppPrivate) (rTerm : Nat) :
    (step w d (.destroyed rTerm)).1.activeTerminals = d.activeTerminals.erase rTerm := by
  unfold step
  by_cases hn : rTerm ∈ d.activeTerminals
  · simp [hn, terminalDestroyed]
  · simp [hn, List.erase_of_not_mem hn]

/-- A step keeps the registry free of duplicates, the arriving terminal being
a new object. -/
theorem step_nodup (w : World) (d : AppPrivate) (s : Step)
    (hnd : d.activeTerminals.Nodup) (hfresh : freshArrivals w d [s] = true) :
    (step w d s).1.activeTerminals.Nodup := by
  cases s with
  | loaded terminal success =>
    have hnew : terminal.ident ∉ d.activeTerminals := by
      simpa [freshArrivals] using hfresh
    show (terminalLoaded w terminal success d).1.activeTerminals.Nodup
    rw [terminalLoaded_registry]
    by_cases hr : retains d terminal success = true
    · rw [if_pos hr]
      exact List.nodup_append.mpr ⟨hnd, List.nodup_singleton _, by simpa using hnew⟩
    · rw [if_neg hr]
      exact hnd
  | destroyed rTerm =>
    rw [step_destroyed_registry]
    exact hnd.erase rTerm

/-- Freshness of a sequence is freshness of its first step and of the rest,
run from the state the first step leaves. -/
theorem freshArrivals_cons (w : World) (d : AppPrivate) (s : Step) (rest : List Step) :
    freshArrivals w d (s :: rest) =
      (freshArrivals w d [s] && freshArrivals w (step w d s).1 rest) := by
  cases s <;> simp [freshArrivals]

/-- A run keeps the registry free of duplicates. -/
theorem run_nodup (w : World) (steps : List Step) (d : AppPrivate)
    (hnd : d.activeTerminals.Nodup) (hfresh : freshArrivals w d steps = true) :
    (run w d steps).1.activeTerminals.Nodup := by
  induction steps generalizing d with
  | nil => exact hnd
  | cons s rest ih =>
    rw [freshArrivals_cons, Bool.and_eq_true] at hfresh
    exact ih (step w d s).1 (step_nodup w d s hnd hfresh.1) hfresh.2

/-- Every beginning of a fresh sequence is fresh. -/
theorem freshArrivals_take (w : World) (steps : List Step) (d : AppPrivate) (n : Nat)
    (hfresh : freshArrivals w d steps = true) : freshArrivals w d (steps.take n) = true := by
  induction steps generalizing d n with
  | nil => simpa using hfresh
  | cons s rest ih =>
    cases n with
    | zero => rfl
    | succ n =>
      rw [freshArrivals_cons, Bool.and_eq_true] at hfresh
      rw [List.take_succ_cons, freshArrivals_cons, Bool.and_eq_true]
      exact ⟨hfresh.1, ih (step w d s).1 n hfresh.2⟩

/-- After a run the registry holds, in their order, entries of the registry it
started from followed by retained arrivals. -/
theorem run_sublist (w : World) (steps : List Step) (d : AppPrivate) :
    (run w d steps).1.activeTerminals.Sublist
      (d.activeTerminals ++ retainedArrivals w d steps) := by
  induction steps generalizing d with
  | nil => simp [run, retainedArrivals]
  | cons s rest ih =>
    have h := ih (step w d s).1
    cases s with
    | loaded terminal success =>
      have hreg : (step w d (.loaded terminal success)).1.activeTerminals =
          (if retains d terminal success then d.activeTerminals ++ [terminal.ident]
           else d.activeTerminals) := terminalLoaded_registry w terminal success d
      rw [hreg] at h
      show (run w (step w d (.loaded terminal success)).1 rest).1.activeTerminals.Sublist _
      by_cases hr : retains d terminal success = true
      · simp only [retainedArrivals, hr, if_true] at h ⊢
        simpa [List.append_assoc] using h
      · simp only [retainedArrivals, hr, Bool.false_eq_true, if_false] at h ⊢
        simpa using h
    | destroyed rTerm =>
      rw [step_destroyed_registry] at h
      show (run w (step w d (.destroyed rTerm)).1 rest).1.activeTerminals.Sublist _
      simp only [retainedArrivals]
      exact h.trans (List.Sublist.append (List.erase_sublist rTerm d.activeTerminals)
        (List.Sublist.refl _))

/-- C11. For every validated terminal: with the auto-kill policy on or
detached mode asked for, it is disconnected, the registry stays as it was (a
terminal not in it does not enter it) and no registry notice is emitted;
otherwise it is put at the end of the registry and one notice carrying the new
registry is emitted. Over every sequence of handshake completions and terminal
destructions, started from a duplicate-free registry and with every created
terminal a new object, the registry is duplicate-free after every beginning of
the sequence, and at the end it holds, in their order, entries of the initial
registry followed by retained arrivals in order of arrival. The destruction of
a registered terminal removes exactly that terminal, the other entries keeping
their order, and emits one notice carrying the new registry. -/
theorem registry_over_time (w : World) (d : AppPrivate) (steps : List Step)
    (hnd : d.activeTerminals.Nodup) (hfresh : freshArrivals w d steps = true) :
    (∀ n, (run w d (steps.take n)).1.activeTerminals.Nodup) ∧
    (run w d steps).1.activeTerminals.Sublist
      (d.activeTerminals ++ retainedArrivals w d steps) ∧
    (∀ (d0 : AppPrivate) (terminal : TerminalPrivate) (parser : QCommandLineParser),
      terminal.loaded = .ok parser →
      ((d0.autoKill || parser.isSet "detached") = true →
        (terminalLoaded w terminal true d0).1.activeTerminals = d0.activeTerminals ∧
        (terminal.ident ∉ d0.activeTerminals →
          terminal.ident ∉ (terminalLoaded w terminal true d0).1.activeTerminals) ∧
        disconnects (terminalLoaded w terminal true d0).2 = [terminal.ident] ∧
        registryNotices (terminalLoaded w terminal true d0).2 = []) ∧
      ((d0.autoKill || parser.isSet "detached") = false →
        (terminalLoaded w terminal true d0).1.activeTerminals
          = d0.activeTerminals ++ [terminal.ident] ∧
        registryNotices (terminalLoaded w terminal true d0).2
          = [d0.activeTerminals ++ [terminal.ident]] ∧
        disconnects (terminalLoaded w terminal true d0).2 = [])) ∧
    (∀ (d0 : AppPrivate) (rTerm : Nat),
      d0.activeTerminals.Nodup → rTerm ∈ d0.activeTerminals →
      (step w d0 (.destroyed rTerm)).1.activeTerminals
        = d0.activeTerminals.filter (fun t => t != rTerm) ∧
      rTerm ∉ (step w d0 (.destroyed rTerm)).1.activeTerminals ∧
      (step w d0 (.destroyed rTerm)).2
        = [.connectedTerminalsChanged (d0.activeTerminals.filter (fun t => t != rTerm))]) := by
  refine ⟨?_, run_sublist w steps d, ?_, ?_⟩
  · intro n
    exact run_nodup w (steps.take n) d hnd (freshArrivals_take w steps d n hfresh)
  · intro d0 terminal parser hl
    obtain ⟨h1, h2, h3⟩ := terminalLoaded_disposition w terminal parser d0 hl
    constructor
    · intro hk
      rw [hk] at h1 h2 h3
      simp only [if_true] at h1 h2 h3
      exact ⟨h1, fun hn => by rw [h1]; exact hn, h3, h2⟩
    · intro hk
      rw [hk] at h1 h2 h3
      simp only [Bool.false_eq_true, if_false] at h1 h2 h3
      exact ⟨h1, h2, h3⟩
  · intro d0 rTerm hn hmem
    have hreg := step_destroyed_registry w d0 rTerm
    rw [hn.erase_eq_filter rTerm] at hreg
    refine ⟨hreg, ?_, ?_⟩
    · rw [hreg]
      simp
    · have hev : (step w d0 (.destroyed rTerm)).2
          = [.connectedTerminalsChanged (d0.activeTerminals.erase rTerm)] := by
        simp [step, hmem, terminalDestroyed]
      rw [hev, hn.erase_eq_filter rTerm]

/-- C11 on the sample sequence, started from the fresh master: the registry
is duplicate-free at the end, it is a sublist of the retained arrivals, and
the destruction of terminal 1 from the registry 1, 3 leaves 3. -/
theorem registry_over_time_witness :
    freshApp.activeTerminals.Nodup ∧
    freshArrivals (calmWorld ["demo"]) freshApp sampleSteps = true ∧
    (run (calmWorld ["demo"]) freshApp (sampleSteps.take 6)).1.activeTerminals.Nodup ∧
    (run (calmWorld ["demo"]) freshApp sampleSteps).1.activeTerminals.Sublist
      (freshApp.activeTerminals ++ retainedArrivals (calmWorld ["demo"]) freshApp sampleSteps) ∧
    (step (calmWorld ["demo"]) { freshApp with activeTerminals := [1, 3] }
        (.destroyed 1)).1.activeTerminals = [3] :=
  ⟨List.nodup_nil, by decide,
   (registry_over_time (calmWorld ["demo"]) freshApp sampleSteps List.nodup_nil
      (by decide)).1 6,
   (registry_over_time (calmWorld ["demo"]) freshApp sampleSteps List.nodup_nil
      (by decide)).2.1,
   ((registry_over_time (calmWorld ["demo"]) freshApp sampleSteps List.nodup_nil
      (by decide)).2.2.2 { freshApp with activeTerminals := [1, 3] } 1
      (by decide) (by decide)).1.trans (by decide)⟩

end QtBackgroundProcess
